import Mathlib

/-
  Verification of the natural-language specification of the `autoimpute`
  missingness-classification core against a shallow embedding of
  `autoimpute/imputations/mis_classifier.py` (class `MissingnessClassifier`).

  Modelling conventions:
  * A pandas `DataFrame` is a row-label index (`idx`) plus a list of named,
    typed columns (`cols`).  A null cell (`np.nan` / `None`) is `none`.
  * Numbers are rationals (the claims never depend on floating-point
    rounding), so probabilities produced by a classifier are `Rat`.
  * Injected classifiers and scalers are arbitrary Lean functions; sklearn
    classifiers predict row-wise, so a fitted classifier is modelled as a
    per-row function.  `clone` of an unfitted estimator is a pure value, so
    cloning is implicit.
  * A Python exception is `Except.error`; computations that can raise return
    `Except String`.
  * `autoimpute.utils.helpers._nan_col_dropper` and the decorator
    `autoimpute.utils.checks.check_missingness` are imported by the source
    file but their defining modules are not part of the sources.  The
    dropper is modelled from the spec (see `nan_col_dropper`); the decorator
    only validates its argument and is given no behavior by the spec for
    valid datasets, so it is modelled as the identity.
-/

set_option maxHeartbeats 1000000

namespace Autoimpute

/-- Dtype of a pandas column: numeric (`np.number`) or object (categorical). -/
inductive Dtype
  | numeric
  | object
deriving DecidableEq, Repr

/-- A non-null cell value: a numeric entry or a categorical (string) entry. -/
inductive Val
  | num (q : ℚ)
  | cat (s : String)
deriving DecidableEq, Repr

/-- A DataFrame cell; `none` models a null (`np.nan` / `None`). -/
abbrev Cell := Option Val

/-- A named, typed column of a DataFrame. -/
structure Col where
  name : String
  dtype : Dtype
  cells : List Cell
deriving DecidableEq, Repr

/-- A pandas DataFrame: a row-label index plus a list of columns. -/
structure DF where
  idx : List Nat
  cols : List Col
deriving DecidableEq, Repr

/-- The column labels of a DataFrame (`X.columns.tolist()`). -/
def DF.colNames (X : DF) : List String :=
  X.cols.map Col.name

/-- Number of rows (`len(X.index)`). -/
def DF.nrows (X : DF) : Nat :=
  X.idx.length

/-- Column lookup by label (`X[c]`); pandas returns the first match. -/
def DF.find? (X : DF) (c : String) : Option Col :=
  X.cols.find? (fun k => k.name == c)

/-- A DataFrame is rectangular: every column has one cell per row label. -/
def DF.Rect (X : DF) : Prop :=
  ∀ c ∈ X.cols, c.cells.length = X.idx.length

/-- The DataFrame uses the default positional index `0..n-1`. -/
def DF.defaultIdx (X : DF) : Prop :=
  X.idx = List.range X.idx.length

/-- A column is entirely null. -/
def Col.isAllNull (c : Col) : Bool :=
  c.cells.all Option.isNone

/-- Row-major `.values` of a list of columns over `n` rows
(`np.concatenate` of block `.values` along axis 1 is modelled by listing the
already-concatenated columns). -/
def colsValues (n : Nat) (cols : List Col) : List (List Cell) :=
  (List.range n).map (fun r => cols.map (fun c => c.cells.getD r none))

/-- `X.drop(labels, axis=1)`: drops the named columns, raising a `KeyError`
when some label is absent (pandas default `errors="raise"`). -/
def dfDrop (X : DF) (labels : List String) : Except String DF :=
  if labels.all (fun l => X.colNames.contains l) then
    Except.ok ⟨X.idx, X.cols.filter (fun c => !(labels.contains c.name))⟩
  else
    Except.error ("KeyError: drop labels not found")

/-- Modelled from the spec: `_nan_col_dropper` from
`autoimpute.utils.helpers` is not among the sources.  Per the spec
("Drops any column that is 100% null, recording its name"; the dataset is
"Owned by the caller; the core only reads it") it returns the dataset
without its entirely-null columns together with the names of the dropped
columns. -/
def nan_col_dropper (X : DF) : DF × List String :=
  (⟨X.idx, X.cols.filter (fun c => !(c.isAllNull))⟩,
   (X.cols.filter (fun c => c.isAllNull)).map Col.name)

/-- One 0/1 column of the missingness indicator matrix. -/
structure MICol where
  name : String
  cells : List Nat
deriving DecidableEq, Repr

/-- The missingness indicator matrix `data_mi` (same index as the frame). -/
structure MI where
  idx : List Nat
  cols : List MICol
deriving DecidableEq, Repr

/-- Column labels of the indicator matrix. -/
def MI.colNames (mi : MI) : List String :=
  mi.cols.map MICol.name

/-- Indicator column lookup by label. -/
def MI.find? (mi : MI) (c : String) : Option (List Nat) :=
  (mi.cols.find? (fun k => k.name == c)).map MICol.cells

/-- `pd.isnull(X) * 1`: 1 where a cell is null, 0 elsewhere. -/
def isnullMI (X : DF) : MI :=
  ⟨X.idx,
   X.cols.map (fun c =>
     ⟨c.name, c.cells.map (fun v => if v.isNone then 1 else 0)⟩)⟩

/-- `X.select_dtypes(include=(np.number,))`: the numeric block. -/
def dataNumOf (X : DF) : DF :=
  ⟨X.idx, X.cols.filter (fun c => c.dtype == Dtype.numeric)⟩

/-- Code-point comparison of character lists (how Python sorts strings). -/
def charListLe : List Char → List Char → Bool
  | [], _ => true
  | _ :: _, [] => false
  | a :: as, b :: bs =>
      if a.toNat < b.toNat then true
      else if b.toNat < a.toNat then false
      else charListLe as bs

/-- Lexicographic string comparison by code point. -/
def strLe (a b : String) : Bool :=
  charListLe a.data b.data

/-- Insert a string into a sorted list of strings. -/
def insertCat (a : String) : List String → List String
  | [] => [a]
  | b :: bs => if strLe a b then a :: b :: bs else b :: insertCat a bs

/-- Insertion sort of strings by code point (the category order used by
`pd.get_dummies`). -/
def sortCats : List String → List String
  | [] => []
  | a :: as => insertCat a (sortCats as)

/-- Character-list prefix test. -/
def charListIsPre : List Char → List Char → Bool
  | [], _ => true
  | _ :: _, [] => false
  | a :: as, b :: bs => if a = b then charListIsPre as bs else false

/-- `s.startswith(pre)` on strings. -/
def strStartsWith (s pre : String) : Bool :=
  charListIsPre pre.data s.data

/-- `s.split('_')[0]`: the characters before the first underscore. -/
def splitHead (s : String) : String :=
  ⟨s.data.takeWhile (fun ch => !(ch = '_'))⟩

/-- The non-null categorical values of a column, in row order. -/
def catValues (c : Col) : List String :=
  c.cells.filterMap (fun v =>
    match v with
    | some (Val.cat s) => some s
    | _ => none)

/-- The categories of a column as `pd.get_dummies` sees them: the distinct
observed values, sorted. -/
def categoriesOf (c : Col) : List String :=
  sortCats (catValues c).dedup

/-- `pd.get_dummies(X[col], prefix=col)`: one 0/1 column per observed
category, named `<col>_<category>`; null rows get 0 in every dummy. -/
def getDummies (c : Col) : List Col :=
  (categoriesOf c).map (fun cat =>
    ⟨c.name ++ "_" ++ cat, Dtype.numeric,
     c.cells.map (fun v =>
       if v == some (Val.cat cat) then some (Val.num 1) else some (Val.num 0))⟩)

/-- `_check_if_single_dummy`: warn when a one-hot block collapsed to a
single category. -/
def checkIfSingleDummy (block : List Col) : List String :=
  match block with
  | [c] =>
      [c.name ++ " only category for feature " ++ splitHead c.name ++
       ". Consider removing " ++ splitHead c.name ++ " from dataset."]
  | _ => []

/-- The dummy block `_data_dum` built by `_prep_dataframes`, with the
single-category warnings it emits. -/
def dataDumOf (X : DF) : DF × List String :=
  let blocks := (X.cols.filter (fun c => c.dtype == Dtype.object)).map getDummies
  match blocks with
  | [] => (⟨[], []⟩, [])
  | [b] => (⟨X.idx, b⟩, checkIfSingleDummy b)
  | bs => (⟨X.idx, bs.flatten⟩, (bs.map checkIfSingleDummy).flatten)

/-- A fitted classifier.  sklearn estimators predict each row independently,
so the fitted model is a pair of per-row functions: the hard 0/1 class and
`predict_proba(x)[:, 1]`, the probability of class 1 (missing). -/
structure FittedClf where
  predRow : List Cell → ℚ
  probaRow : List Cell → ℚ

/-- An (unfitted) classifier: `clone(...).fit(x, y)` yields a fitted model
from the predictor matrix and the 0/1 target vector. -/
structure Classifier where
  fitF : List (List Cell) → List Nat → FittedClf

/-- A fitted scaler (`transform`). -/
structure FittedScaler where
  transformF : List (List Cell) → List (List Cell)

/-- An (unfitted) scaler: `clone(...).fit(values)` yields a fitted scaler. -/
structure Scaler where
  fitS : List (List Cell) → FittedScaler

/-- The duck-typed capabilities probed by the property setters
(`hasattr(obj, method)`). -/
structure Capabilities where
  hasFit : Bool
  hasPredict : Bool
  hasPredictProba : Bool
  hasFitTransform : Bool
  hasTransform : Bool
deriving DecidableEq, Repr

/-- The default `XGBClassifier()` exposes fit, predict and predict_proba. -/
def xgbCaps : Capabilities :=
  ⟨true, true, true, false, false⟩

/-- The `classifier` property setter: `None` installs the default
`XGBClassifier`; otherwise only the `predict_proba` attribute is probed. -/
def classifierSetter (c : Option Capabilities) : Except String Capabilities :=
  match c with
  | none => Except.ok xgbCaps
  | some cc =>
      if cc.hasPredictProba then Except.ok cc
      else Except.error ("Classifier must implement predict_proba method.")

/-- The `scaler` property setter: `None` is kept as-is; otherwise only the
`fit_transform` attribute is probed. -/
def scalerSetter (s : Option Capabilities) : Except String (Option Capabilities) :=
  match s with
  | none => Except.ok none
  | some sc =>
      if sc.hasFitTransform then Except.ok (some sc)
      else Except.error ("Scaler must implement fit_transform method.")

/-- The mutable state of a `MissingnessClassifier` instance (`self`). -/
structure MCState where
  classifier : Classifier
  scaler : Option Scaler
  verbose : Bool
  nc : List String
  data_mi : MI
  data_num : DF
  data_dum : DF
  scaledNum : Option FittedScaler
  scaledDum : Option FittedScaler
  statistics : List (String × FittedClf)
  fitted : Bool
  data_mi_proba : DF
  data_mi_preds : DF
  test_indices : List (String × List Nat)

/-- A fresh instance right after `__init__` (with validated properties). -/
def initState (c : Classifier) (s : Option Scaler) : MCState :=
  ⟨c, s, false, [], ⟨[], []⟩, ⟨[], []⟩, ⟨[], []⟩, none, none, [], false,
   ⟨[], []⟩, ⟨[], []⟩, []⟩

/-- Decidable equality of `Except` results, used to evaluate the embedding
at concrete inputs. -/
instance exceptDecEq {ε α : Type} [DecidableEq ε] [DecidableEq α] :
    DecidableEq (Except ε α) :=
  fun a b =>
    match a, b with
    | Except.error e, Except.error f =>
        if h : e = f then Decidable.isTrue (by rw [h])
        else Decidable.isFalse (fun hc => h (by cases hc; rfl))
    | Except.ok x, Except.ok y =>
        if h : x = y then Decidable.isTrue (by rw [h])
        else Decidable.isFalse (fun hc => h (by cases hc; rfl))
    | Except.error _, Except.ok _ =>
        Decidable.isFalse (fun hc => Except.noConfusion hc)
    | Except.ok _, Except.error _ =>
        Decidable.isFalse (fun hc => Except.noConfusion hc)

/-- Association-list lookup keyed by strings (a Python dict access). -/
def alookup {α : Type} (l : List (String × α)) (k : String) : Option α :=
  (l.find? (fun p => p.1 == k)).map Prod.snd

/-- Short-circuiting effectful map over a list in the `Except` monad;
models a Python `for` loop that may raise. -/
def exceptMap {α β : Type} (f : α → Except String β) :
    List α → Except String (List β)
  | [] => Except.ok []
  | a :: l =>
      match f a with
      | Except.error e => Except.error e
      | Except.ok b =>
          match exceptMap f l with
          | Except.error e => Except.error e
          | Except.ok bs => Except.ok (b :: bs)

/-- Warning text of `_prep_predictor` when fit-time-dropped columns are
removed again at predict time. -/
def dropWarnMsg (nc : List String) : String :=
  String.intercalate (", ") nc ++ " dropped in transform since they were not fit."

/-- `_prep_dataframes`: drop all-null columns, build the missingness
indicator matrix, the numeric block and the dummy block.  Returns the
updated state and the warnings emitted. -/
def prep_dataframes (st : MCState) (X : DF) : MCState × List String :=
  let Xnc := nan_col_dropper X
  let dum := dataDumOf Xnc.1
  ({ st with
      nc := Xnc.2
      data_mi := isnullMI Xnc.1
      data_num := dataNumOf Xnc.1
      data_dum := dum.1 },
   (if Xnc.2.isEmpty then [] else [dropWarnMsg Xnc.2 ++ " (dropped at fit)"]) ++ dum.2)

/-- `_scaler_fit`: fit one cloned scaler on the numeric block and one on the
dummy block (only called when a scaler is configured). -/
def scaler_fit (st : MCState) : MCState :=
  let n := st.data_mi.idx.length
  let st1 :=
    if st.data_num.cols.length > 0 then
      { st with scaledNum := st.scaler.map (fun sc => sc.fitS (colsValues n st.data_num.cols)) }
    else st
  if st1.data_dum.cols.length > 0 then
    { st1 with scaledDum := st1.scaler.map (fun sc => sc.fitS (colsValues n st1.data_dum.cols)) }
  else st1

/-- Rebuild a block from transformed values (`pd.DataFrame(sn, columns=cn)`
resets the index to `0..n-1`). -/
def rebuildDF (names : List String) (rows : List (List Cell)) : DF :=
  ⟨List.range rows.length,
   (names.zip rows.transpose).map (fun p => ⟨p.1, Dtype.numeric, p.2⟩)⟩

/-- `_scaler_transform`: transform whichever blocks have a fitted scaler. -/
def scaler_transform (st : MCState) : MCState :=
  let n := st.data_mi.idx.length
  let st1 :=
    match st.scaledNum with
    | none => st
    | some f =>
        { st with data_num :=
            rebuildDF st.data_num.colNames (f.transformF (colsValues n st.data_num.cols)) }
  match st1.scaledDum with
  | none => st1
  | some f =>
      { st1 with data_dum :=
          rebuildDF st1.data_dum.colNames (f.transformF (colsValues n st1.data_dum.cols)) }

/-- Error text of `_prep_classifier_cols` when no predictor column
remains. -/
def needPredictorMsg : String :=
  "Need at least one predictor column."

/-- Branch structure of `_prep_classifier_cols`: assembles the predictor
columns for one target; raises when no predictor column remains. -/
def prepXCols (st : MCState) (c : String) (col : Col) :
    Except String (List Col) :=
  if col.dtype == Dtype.numeric then
    if st.data_num.cols.length > 1 then
      match dfDrop st.data_num [c] with
      | Except.error e => Except.error e
      | Except.ok numCols =>
          if st.data_dum.cols.length > 0 then
            Except.ok (numCols.cols ++ st.data_dum.cols)
          else
            Except.ok numCols.cols
    else
      if st.data_dum.cols.length > 0 then
        Except.ok st.data_dum.cols
      else
        Except.error needPredictorMsg
  else
    let d := st.data_dum.cols.filter (fun k => !(strStartsWith k.name (c ++ "_")))
    if d.length > 0 then
      if st.data_num.cols.length > 0 then
        Except.ok (st.data_num.cols ++ d)
      else
        Except.ok d
    else
      if st.data_num.cols.length > 0 then
        Except.ok st.data_num.cols
      else
        Except.error needPredictorMsg

/-- Continuation of `_prep_classifier_cols`: pair the predictor columns with
the target vector `y = self.data_mi[c].values`. -/
def prep_classifier_cols (st : MCState) (X : DF) (c : String) :
    Except String (List Col × List Nat) :=
  match X.find? c with
  | none => Except.error ("KeyError: " ++ c)
  | some col =>
      match prepXCols st c col with
      | Except.error e => Except.error e
      | Except.ok xcols =>
          match st.data_mi.find? c with
          | some y => Except.ok (xcols, y)
          | none => Except.error ("KeyError: " ++ c)

/-- Result of `_prep_predictor`: the updated state, the (possibly
column-dropped) caller's dataset, and the warnings emitted. -/
structure PrepOut where
  st : MCState
  x : DF
  warns : List String

/-- Error text of the fit/predict column-set consistency check. -/
def mismatchMsg : String :=
  "Same columns must appear in fit and predict."

/-- Tail of `_prep_predictor`: the column-set consistency check against the
fit-time indicator matrix, the optional re-preprocessing when the caller
flags new data, and the scaler transform. -/
def prepAfterDrop (st : MCState) (X1 : DF) (newData : Bool)
    (w1 : List String) : Except String PrepOut :=
  if ((X1.colNames.filter (fun s => !(st.data_mi.colNames.contains s))).isEmpty
      && (st.data_mi.colNames.filter
            (fun s => !(X1.colNames.contains s))).isEmpty) then
    let pw := if newData then prep_dataframes st X1 else (st, ([] : List String))
    let st2 := if pw.1.scaler.isSome then scaler_transform pw.1 else pw.1
    Except.ok ⟨st2, X1, w1 ++ pw.2⟩
  else
    Except.error mismatchMsg

/-- `_prep_predictor`: fitted-state check, then the in-place removal of the
fit-time dropped columns from the caller's dataset (`X.drop(self._nc,
axis=1, inplace=True)`), then `prepAfterDrop`. -/
def prep_predictor (st : MCState) (X : DF) (newData : Bool) :
    Except String PrepOut :=
  if st.fitted then
    if st.nc.isEmpty then
      prepAfterDrop st X newData []
    else
      match dfDrop X st.nc with
      | Except.error e => Except.error e
      | Except.ok X1 => prepAfterDrop st X1 newData [dropWarnMsg st.nc]
  else
    Except.error ("NotFittedError: this instance is not fitted yet.")

/-- Predictor matrix and target for one column, as `fit` builds them. -/
def fitOne (st : MCState) (X : DF) (mc : MICol) :
    Except String (String × FittedClf) :=
  match prep_classifier_cols st X mc.name with
  | Except.error e => Except.error e
  | Except.ok pr =>
      Except.ok (mc.name,
        st.classifier.fitF (colsValues st.data_mi.idx.length pr.1) pr.2)

/-- Result of `fit`: the fitted instance, the caller's dataset after the
call, and the warnings emitted. -/
structure FitOut where
  st : MCState
  xAfter : DF
  warns : List String

/-- `fit(X)`: preprocess, optionally fit scalers, then fit one cloned
classifier per retained column on that column's predictor matrix and
missingness indicator. -/
def fitM (st0 : MCState) (X : DF) : Except String FitOut :=
  let pw := prep_dataframes st0 X
  let st2 := if pw.1.scaler.isSome then scaler_fit pw.1 else pw.1
  match exceptMap (fitOne st2 X) st2.data_mi.cols with
  | Except.error e => Except.error e
  | Except.ok stats =>
      Except.ok ⟨{ st2 with statistics := stats, fitted := true }, X, pw.2⟩

/-- Result of `predict` / `predict_proba`. -/
structure PredOut where
  result : DF
  xAfter : DF
  st : MCState
  warns : List String

/-- Assemble the result table: one `<col>_pred` column per column of the
(possibly dropped) input; `pd.DataFrame(...)` gives it a fresh positional
index. -/
def assemblePreds (x : DF) (n : Nat) (preds : List (List ℚ)) : DF :=
  ⟨List.range n,
   List.zipWith (fun nm v =>
       Col.mk (nm ++ "_pred") Dtype.numeric (v.map (fun q => some (Val.num q))))
     x.colNames preds⟩

/-- One column of the class-prediction loop of `predict`. -/
def predictColFor (st : MCState) (x : DF) (n : Nat) (mc : MICol) :
    Except String (List ℚ) :=
  match prep_classifier_cols st x mc.name with
  | Except.error e => Except.error e
  | Except.ok pr =>
      match alookup st.statistics mc.name with
      | none => Except.error ("KeyError: " ++ mc.name)
      | some f => Except.ok ((colsValues n pr.1).map f.predRow)

/-- One column of the probability loop of `predict_proba`. -/
def probaColFor (st : MCState) (x : DF) (n : Nat) (mc : MICol) :
    Except String (List ℚ) :=
  match prep_classifier_cols st x mc.name with
  | Except.error e => Except.error e
  | Except.ok pr =>
      match alookup st.statistics mc.name with
      | none => Except.error ("KeyError: " ++ mc.name)
      | some f => Except.ok ((colsValues n pr.1).map f.probaRow)

/-- `predict(X, new_data)`: 0/1 class membership per retained column. -/
def predictM (st : MCState) (X : DF) (newData : Bool) :
    Except String PredOut :=
  match prep_predictor st X newData with
  | Except.error e => Except.error e
  | Except.ok po =>
      match exceptMap (predictColFor po.st po.x po.st.data_mi.idx.length)
          po.st.data_mi.cols with
      | Except.error e => Except.error e
      | Except.ok preds =>
          let res := assemblePreds po.x po.st.data_mi.idx.length preds
          Except.ok ⟨res, po.x, { po.st with data_mi_preds := res }, po.warns⟩

/-- `predict_proba(X, new_data)`: probability of missingness per retained
column (`predict_proba(x)[:, 1]`). -/
def predictProbaM (st : MCState) (X : DF) (newData : Bool) :
    Except String PredOut :=
  match prep_predictor st X newData with
  | Except.error e => Except.error e
  | Except.ok po =>
      match exceptMap (probaColFor po.st po.x po.st.data_mi.idx.length)
          po.st.data_mi.cols with
      | Except.error e => Except.error e
      | Except.ok preds =>
          let res := assemblePreds po.x po.st.data_mi.idx.length preds
          Except.ok ⟨res, po.x, { po.st with data_mi_proba := res }, po.warns⟩

/-- `fit_predict_proba(X, new_data)`: `self.fit(X).predict_proba(X, new_data)`. -/
def fitPredictProbaM (st0 : MCState) (X : DF) (newData : Bool) :
    Except String PredOut :=
  match fitM st0 X with
  | Except.error e => Except.error e
  | Except.ok fr =>
      match predictProbaM fr.st fr.xAfter newData with
      | Except.error e => Except.error e
      | Except.ok po =>
          Except.ok ⟨po.result, po.xAfter, po.st, fr.warns ++ po.warns⟩

/-- Position of the first occurrence of a row label in an index. -/
def posOf (l : Nat) : List Nat → Option Nat
  | [] => none
  | a :: rest => if a == l then some 0 else (posOf l rest).map (fun i => i + 1)

/-- Label-based lookup into the probability table
(`self.data_mi_proba.loc[label, col]`), returning the numeric value; `none`
models a `KeyError` / non-numeric cell.  The indexes that reach this lookup
are duplicate-free, so taking the first occurrence agrees with pandas. -/
def locProba (tbl : DF) (l : Nat) (cn : String) : Option ℚ :=
  match tbl.find? cn with
  | none => none
  | some col =>
      match posOf l tbl.idx with
      | none => none
      | some i =>
          match col.cells.getD i none with
          | some (Val.num q) => some q
          | _ => none

/-- Result of `gen_test_indices` / `gen_test_df`. -/
structure GenOut where
  st : MCState
  xAfter : DF
  warns : List String

/-- The per-column loop body of `gen_test_indices`: labels where the true
indicator is 0, their predicted probabilities, and the labels whose
probability strictly exceeds the threshold. -/
def testIndicesFor (st : MCState) (thresh : ℚ) (mc : MICol) :
    Except String (String × List Nat) :=
  match exceptMap (fun l =>
      match locProba st.data_mi_proba l (mc.name ++ "_pred") with
      | some q => Except.ok ((l, q))
      | none => Except.error ("KeyError: label not in probability table"))
    (((st.data_mi.idx.zip mc.cells).filter (fun p => p.2 == 0)).map Prod.fst) with
  | Except.error e => Except.error e
  | Except.ok vals =>
      Except.ok ((mc.name, (vals.filter (fun p => thresh < p.2)).map Prod.fst))

/-- The flagging loop of `gen_test_indices`: per retained column, the
observed labels whose predicted missingness probability exceeds the
threshold. -/
def genTestLoop (base : GenOut) (thresh : ℚ) : Except String GenOut :=
  match exceptMap (testIndicesFor base.st thresh) base.st.data_mi.cols with
  | Except.error e => Except.error e
  | Except.ok ti =>
      Except.ok ⟨{ base.st with test_indices := ti }, base.xAfter, base.warns⟩

/-- `gen_test_indices(X, thresh, new_data, use_exist)`: refit and re-predict
probabilities unless told to reuse, then run the per-column flagging loop. -/
def genTestIndicesM (st0 : MCState) (X : DF) (thresh : ℚ)
    (newData useExist : Bool) : Except String GenOut :=
  if useExist then
    genTestLoop ⟨st0, X, []⟩ thresh
  else
    match fitPredictProbaM st0 X newData with
    | Except.error e => Except.error e
    | Except.ok po => genTestLoop ⟨po.st, po.xAfter, po.warns⟩ thresh

/-- The masking loop of `gen_test_df`: for each column of the working frame,
null the cells at the flagged labels (`np.nan` and `None` are both the null
marker `none`), warning when a column got at most `⌊m·n⌋` test cases. -/
def maskCols (ti : List (String × List Nat)) (idx : List Nat) (minNum : ℤ)
    (m : ℚ) : List Col → Except String (List Col × List String)
  | [] => Except.ok (([], []))
  | c :: rest =>
      match alookup ti c.name with
      | none => Except.error ("KeyError: " ++ c.name)
      | some ix =>
          match maskCols ti idx minNum m rest with
          | Except.error e => Except.error e
          | Except.ok pr =>
              Except.ok
                ((⟨c.name, c.dtype,
                   List.zipWith (fun l v => if ix.contains l then none else v)
                     idx c.cells⟩ :: pr.1,
                  (if (ix.length : ℤ) ≤ minNum then
                     ["Fewer than " ++ toString (m * 100) ++
                      "% set to missing for " ++ c.name]
                   else []) ++ pr.2))

/-- Result of `gen_test_df`: the returned masked table, the caller's dataset
object after the call, the final state and the warnings. -/
structure TestDFOut where
  result : DF
  callerX : DF
  st : MCState
  warns : List String

/-- `gen_test_df(X, thresh, m, inplace, new_data, use_exist)`: run
`gen_test_indices` on the working frame (the caller's frame itself when
`inplace`, else a copy) and null the flagged cells of each of its columns. -/
def genTestDFM (st0 : MCState) (X : DF) (thresh m : ℚ)
    (inplace newData useExist : Bool) : Except String TestDFOut :=
  match genTestIndicesM st0 X thresh newData useExist with
  | Except.error e => Except.error e
  | Except.ok g =>
      match maskCols g.st.test_indices g.xAfter.idx
          ⌊m * (g.xAfter.nrows : ℚ)⌋ m g.xAfter.cols with
      | Except.error e => Except.error e
      | Except.ok pr =>
          Except.ok ⟨⟨g.xAfter.idx, pr.1⟩,
            (if inplace then (⟨g.xAfter.idx, pr.1⟩ : DF) else X),
            g.st, g.warns ++ pr.2⟩

/-- Claim-facing accessor: the missingness indicator for column `c` at row
`r` (rows are positions, valid for default-indexed data). -/
def miVal (mi : MI) (c : String) (r : Nat) : Nat :=
  ((mi.find? c).getD []).getD r 1

/-- Claim-facing accessor: the predicted probability of missingness for
column `c` at row `r`, read off the assembled probability table. -/
def probaVal (tbl : DF) (c : String) (r : Nat) : ℚ :=
  match tbl.find? (c ++ "_pred") with
  | none => 0
  | some col =>
      match col.cells.getD r none with
      | some (Val.num q) => q
      | _ => 0

/-- The predictor-preparation state produced by `fit` under the default
configuration (no scaler). -/
def fitPre (cl : Classifier) (X : DF) : MCState :=
  (prep_dataframes (initState cl none) X).1

/-- The dataset with its entirely-null columns removed. -/
def retainedDF (X : DF) : DF :=
  (nan_col_dropper X).1

/- ### Concrete instances used by witnesses and counterexamples -/

/-- A stub classifier: the fitted model always predicts class 0 with
missingness probability 1 (a "classifier stub with known, fixed
probability outputs" in the spec's words). -/
def stubClf : Classifier :=
  ⟨fun _x _y => ⟨fun _r => 0, fun _r => 1⟩⟩

/-- Two numeric columns, one of them partly null; default index. -/
def exX : DF :=
  ⟨[0, 1, 2],
   [⟨"a", Dtype.numeric, [some (Val.num 1), none, some (Val.num 3)]⟩,
    ⟨"g", Dtype.object,
     [some (Val.cat "M"), some (Val.cat "F"), some (Val.cat "M")]⟩]⟩

/-- Numeric columns `a`, `b` plus an entirely-null column `z`. -/
def exXz : DF :=
  ⟨[0, 1],
   [⟨"a", Dtype.numeric, [some (Val.num 1), some (Val.num 2)]⟩,
    ⟨"b", Dtype.numeric, [some (Val.num 5), none]⟩,
    ⟨"z", Dtype.numeric, [none, none]⟩]⟩

/-- Name collision: a numeric column `a_b` next to a categorical column `a`
whose only category is `b`, so the dummy expansion of `a` is also named
`a_b`. -/
def exX2 : DF :=
  ⟨[0],
   [⟨"a_b", Dtype.numeric, [some (Val.num 1)]⟩,
    ⟨"a", Dtype.object, [some (Val.cat "b")]⟩]⟩

/-- A single numeric column: no predictor remains for it. -/
def exX1 : DF :=
  ⟨[0, 1], [⟨"a", Dtype.numeric, [some (Val.num 1), none]⟩]⟩

/-- `exX` with the non-default row index `[5, 6, 7]`. -/
def exXbad : DF :=
  ⟨[5, 6, 7], exX.cols⟩

/-- An object exposing `predict_proba` but neither `fit` nor `predict`. -/
def probaOnlyCaps : Capabilities :=
  ⟨false, false, true, false, false⟩

/-- An object exposing `fit_transform` but not `transform`. -/
def fitTransformOnlyCaps : Capabilities :=
  ⟨false, false, false, true, false⟩

/-- The column labels the caller's dataset retains once `_prep_predictor`
has dropped the fit-time dropped columns. -/
def predictCols (st : MCState) (Y : DF) : List String :=
  Y.colNames.filter (fun s => !(st.nc.contains s))

/-- A handcrafted fitted state over `exX` (no dropped columns, no scaler),
used to exercise the predict-time consistency check. -/
def wSt4 : MCState :=
  { initState stubClf none with fitted := true, data_mi := isnullMI exX }

/-- The numeric block `_prep_dataframes` computes from a dataset. -/
def numBlock (Y : DF) : DF :=
  dataNumOf (retainedDF Y)

/-- The dummy block `_prep_dataframes` computes from a dataset. -/
def dumBlock (Y : DF) : DF :=
  (dataDumOf (retainedDF Y)).1

/-- The predictor matrix that `_prep_classifier_cols` would build from the
blocks of `Y` for target `c` (of dtype `col.dtype`) has zero columns: no
other numeric column and no dummy column outside the target's own prefix
remain. -/
def zeroPredB (Y : DF) (col : Col) (c : String) : Bool :=
  if col.dtype == Dtype.numeric then
    decide ((numBlock Y).cols.length ≤ 1) && ((dumBlock Y).cols.length == 0)
  else
    (((dumBlock Y).cols.filter
        (fun k => !(strStartsWith k.name (c ++ "_")))).length == 0)
      && ((numBlock Y).cols.length == 0)

/-- A trivial fitted classifier value. -/
def wFitted : FittedClf :=
  ⟨fun _r => 0, fun _r => 0⟩

/-- A handcrafted fitted state over the single-column dataset `exX1`:
no predictor column remains for its only column `a`. -/
def wSt3 : MCState :=
  { initState stubClf none with
      fitted := true
      data_mi := isnullMI exX1
      data_num := dataNumOf exX1
      statistics := [(("a"), wFitted)] }

/-- Claim-facing accessor: the cell of a table at column `c` and row
position `r` (`none` when the column or row is absent). -/
def dfCell (tbl : DF) (c : String) (r : Nat) : Cell :=
  match tbl.find? c with
  | some k => k.cells.getD r none
  | none => none

/- ### General list lemmas -/

theorem exceptMap_ok_forall {α β : Type} {f : α → Except String β}
    {l : List α} {s : List β} (h : exceptMap f l = Except.ok s) :
    ∀ a ∈ l, ∃ b, f a = Except.ok b := by
  induction l generalizing s with
  | nil => intro a ha; cases ha
  | cons x xs ih =>
      intro a ha
      simp only [exceptMap] at h
      cases hx : f x with
      | error e => rw [hx] at h; cases h
      | ok b =>
          rw [hx] at h
          cases hxs : exceptMap f xs with
          | error e => rw [hxs] at h; cases h
          | ok bs =>
              rw [hxs] at h
              rcases List.mem_cons.mp ha with rfl | hmem
              · exact ⟨b, hx⟩
              · exact ih hxs a hmem

theorem exceptMap_ok_of_forall {α β : Type} {f : α → Except String β}
    {g : α → β} {l : List α} (h : ∀ a ∈ l, f a = Except.ok (g a)) :
    exceptMap f l = Except.ok (l.map g) := by
  induction l with
  | nil => rfl
  | cons x xs ih =>
      simp only [exceptMap, h x (List.mem_cons_self x xs),
        ih (fun a ha => h a (List.mem_cons_of_mem x ha)), List.map]

theorem exceptMap_congr {α β : Type} {f g : α → Except String β}
    {l : List α} (h : ∀ a ∈ l, f a = g a) :
    exceptMap f l = exceptMap g l := by
  induction l with
  | nil => rfl
  | cons x xs ih =>
      simp only [exceptMap, h x (List.mem_cons_self x xs)]
      rw [ih (fun a ha => h a (List.mem_cons_of_mem x ha))]

theorem exceptMap_error_of_mem {α β : Type} {f : α → Except String β}
    {l : List α} {a₀ : α} {m : String}
    (hall : ∀ a ∈ l, (∃ b, f a = Except.ok b) ∨ f a = Except.error m)
    (hmem : a₀ ∈ l) (herr : f a₀ = Except.error m) :
    exceptMap f l = Except.error m := by
  induction l with
  | nil => cases hmem
  | cons x xs ih =>
      simp only [exceptMap]
      rcases List.mem_cons.mp hmem with rfl | hmem'
      · rw [herr]
      · rcases hall x (List.mem_cons_self x xs) with ⟨b, hb⟩ | hb
        · rw [hb, ih (fun a ha => hall a (List.mem_cons_of_mem x ha)) hmem']
        · rw [hb]

theorem exceptMap_ok_length {α β : Type} {f : α → Except String β}
    {l : List α} {s : List β} (h : exceptMap f l = Except.ok s) :
    s.length = l.length := by
  induction l generalizing s with
  | nil => cases h; rfl
  | cons x xs ih =>
      simp only [exceptMap] at h
      cases hx : f x with
      | error e => rw [hx] at h; cases h
      | ok b =>
          rw [hx] at h
          cases hxs : exceptMap f xs with
          | error e => rw [hxs] at h; cases h
          | ok bs =>
              rw [hxs] at h; cases h
              simp [ih hxs]

theorem posOf_map_succ (l : Nat) (xs : List Nat) :
    posOf (l + 1) (xs.map Nat.succ) = posOf l xs := by
  induction xs with
  | nil => rfl
  | cons x xs ih =>
      simp only [List.map, posOf, ih]
      by_cases hx : x = l
      · simp [hx]
      · have hx1 : ¬(Nat.succ x = l + 1) := by omega
        simp [hx, hx1]

theorem posOf_range {l n : Nat} (h : l < n) :
    posOf l (List.range n) = some l := by
  induction n generalizing l with
  | zero => omega
  | succ n ih =>
      rw [List.range_succ_eq_map]
      cases l with
      | zero => simp [posOf]
      | succ k =>
          have hk : k < n := by omega
          simp only [posOf, posOf_map_succ, ih hk]
          simp

theorem string_append_cancel {a b s : String} (h : a ++ s = b ++ s) :
    a = b := by
  have hd : (a ++ s).data = (b ++ s).data := by rw [h]
  rw [String.data_append, String.data_append] at hd
  exact String.ext (List.append_cancel_right hd)

theorem zip_range_filter {β : Type} (cells : List β) (p : β → Bool) (d : β) :
    (((List.range cells.length).zip cells).filter (fun q => p q.2)).map Prod.fst
      = (List.range cells.length).filter (fun r => p (cells.getD r d)) := by
  induction cells with
  | nil => rfl
  | cons x xs ih =>
      rw [List.length_cons, List.range_succ_eq_map]
      have hzip : ((0 :: List.map Nat.succ (List.range xs.length)).zip (x :: xs))
          = (0, x) :: List.map (Prod.map Nat.succ id) ((List.range xs.length).zip xs) := by
        rw [List.zip_cons_cons, List.zip_map_left]
      rw [hzip]
      have hc1 : ((fun q : Nat × β => p q.2) ∘ Prod.map Nat.succ id)
          = (fun q : Nat × β => p q.2) := by
        funext q; rfl
      have hc2 : ((fun r : Nat => p ((x :: xs).getD r d)) ∘ Nat.succ)
          = (fun r : Nat => p (xs.getD r d)) := by
        funext r; rfl
      have hc3 : (Prod.fst ∘ Prod.map (Nat.succ) (id : β → β))
          = (Nat.succ ∘ Prod.fst) := by
        funext q; rfl
      have htail : ((List.map (Prod.map Nat.succ id)
            ((List.range xs.length).zip xs)).filter (fun q => p q.2)).map Prod.fst
          = List.map Nat.succ ((List.range xs.length).filter
              (fun r => p (xs.getD r d))) := by
        rw [List.filter_map, hc1, List.map_map, hc3, ← List.map_map, ih]
      have htail2 : (List.map Nat.succ (List.range xs.length)).filter
            (fun r => p ((x :: xs).getD r d))
          = List.map Nat.succ ((List.range xs.length).filter
              (fun r => p (xs.getD r d))) := by
        rw [List.filter_map, hc2]
      by_cases hx : p x
      · rw [List.filter_cons_of_pos (by simpa using hx),
          List.filter_cons_of_pos (by simpa using hx),
          List.map_cons, htail, htail2]
      · rw [List.filter_cons_of_neg (by simpa using hx),
          List.filter_cons_of_neg (by simpa using hx),
          htail, htail2]

theorem alookup_none_of_not_mem {α : Type} {l : List (String × α)}
    {k : String} (h : k ∉ l.map Prod.fst) : alookup l k = none := by
  induction l with
  | nil => rfl
  | cons p ps ih =>
      simp only [List.map_cons, List.mem_cons] at h
      push_neg at h
      have hne : (p.1 == k) = false := by
        simp only [beq_eq_false_iff_ne, ne_eq]
        exact fun hc => h.1 hc.symm
      simp only [alookup, List.find?_cons, hne]
      exact ih h.2

theorem alookup_map_keyed {α β : Type} (l : List α) (key : α → String)
    (g : α → β) (c : String) :
    alookup (l.map (fun a => (key a, g a))) c
      = (l.find? (fun a => key a == c)).map g := by
  induction l with
  | nil => rfl
  | cons a as ih =>
      simp only [List.map_cons, alookup, List.find?_cons]
      by_cases hk : (key a == c)
      · simp [hk]
      · simp only [Bool.not_eq_true] at hk
        simp only [hk]
        exact ih

theorem find?_key_of_nodup {α : Type} (key : α → String) {l : List α}
    (hnd : (l.map key).Nodup) {a : α} (ha : a ∈ l) :
    l.find? (fun k => key k == key a) = some a := by
  induction l with
  | nil => cases ha
  | cons x xs ih =>
      rw [List.map_cons, List.nodup_cons] at hnd
      by_cases hx : key x = key a
      · have hax : x = a := by
          rcases List.mem_cons.mp ha with rfl | hmem
          · rfl
          · exact absurd (hx ▸ List.mem_map_of_mem key hmem) hnd.1
        subst hax
        simp [List.find?_cons]
      · have hmem : a ∈ xs := by
          rcases List.mem_cons.mp ha with rfl | hmem
          · exact absurd rfl hx
          · exact hmem
        have hbx : (key x == key a) = false := by
          simp [beq_eq_false_iff_ne, hx]
        simp only [List.find?_cons, hbx]
        exact ih hnd.2 hmem

theorem find?_filter_key {α : Type} (key : α → String) {l : List α}
    (q : α → Bool) (hnd : (l.map key).Nodup) {a : α} {c : String}
    (h : l.find? (fun k => key k == c) = some a) (hq : q a = true) :
    (l.filter q).find? (fun k => key k == c) = some a := by
  induction l with
  | nil => cases h
  | cons x xs ih =>
      rw [List.map_cons, List.nodup_cons] at hnd
      simp only [List.find?_cons] at h
      by_cases hx : (key x == c)
      · simp only [hx] at h
        cases h
        simp [List.filter_cons, hq, List.find?_cons, hx]
      · simp only [Bool.not_eq_true] at hx
        simp only [hx] at h
        by_cases hqx : q x
        · rw [List.filter_cons_of_pos hqx]
          simp only [List.find?_cons, hx]
          exact ih hnd.2 h
        · rw [List.filter_cons_of_neg hqx]
          exact ih hnd.2 h

theorem key_not_mem_filter {α : Type} (key : α → String) {l : List α}
    {q : α → Bool} (hnd : (l.map key).Nodup) {a : α} (ha : a ∈ l)
    (hq : q a = false) : key a ∉ (l.filter q).map key := by
  intro hc
  rcases List.mem_map.mp hc with ⟨b, hb, hkb⟩
  rcases List.mem_filter.mp hb with ⟨hbl, hqb⟩
  have hba : b = a := List.inj_on_of_nodup_map hnd hbl ha hkb
  rw [hba] at hqb
  rw [hq] at hqb
  cases hqb

/- ### C5: configuration-time capability validation -/

/-- C5 counterexample: the claim says an object lacking any of the
fit / predict / predict-probability operations is rejected at assignment
time, and a scaler lacking fit-transform or transform likewise.  The
classifier setter accepts an object that only has `predict_proba` (no `fit`,
no `predict`), and the scaler setter accepts an object that has
`fit_transform` but not `transform`. -/
theorem C5_counterexample :
    classifierSetter (some probaOnlyCaps) = Except.ok probaOnlyCaps ∧
    probaOnlyCaps.hasFit = false ∧
    probaOnlyCaps.hasPredict = false ∧
    scalerSetter (some fitTransformOnlyCaps)
      = Except.ok (some fitTransformOnlyCaps) ∧
    fitTransformOnlyCaps.hasTransform = false := by
  refine ⟨rfl, rfl, rfl, rfl, rfl⟩

/-- C5 (amended): assignment-time validation probes exactly one capability
per property — the classifier setter accepts an object iff it exposes
`predict_proba` (and then stores it unchanged), the scaler setter accepts an
object iff it exposes `fit_transform`; assigning `None` succeeds and
installs the defaults (an XGB classifier / no scaler).  Objects lacking the
other operations named by the claim pass assignment and can only fail at
use time. -/
theorem C5_setter_validation :
    (∀ c : Capabilities,
        ((classifierSetter (some c)).isOk = true ↔ c.hasPredictProba = true)) ∧
    (∀ c : Capabilities,
        c.hasPredictProba = true → classifierSetter (some c) = Except.ok c) ∧
    classifierSetter none = Except.ok xgbCaps ∧
    (∀ s : Capabilities,
        ((scalerSetter (some s)).isOk = true ↔ s.hasFitTransform = true)) ∧
    (∀ s : Capabilities,
        s.hasFitTransform = true → scalerSetter (some s) = Except.ok (some s)) ∧
    scalerSetter none = Except.ok none := by
  refine ⟨?_, ?_, rfl, ?_, ?_, rfl⟩
  · intro c
    by_cases h : c.hasPredictProba
    · simp [classifierSetter, h, Except.isOk, Except.toBool]
    · simp only [Bool.not_eq_true] at h
      simp [classifierSetter, h, Except.isOk, Except.toBool]
  · intro c h
    simp [classifierSetter, h]
  · intro s
    by_cases h : s.hasFitTransform
    · simp [scalerSetter, h, Except.isOk, Except.toBool]
    · simp only [Bool.not_eq_true] at h
      simp [scalerSetter, h, Except.isOk, Except.toBool]
  · intro s h
    simp [scalerSetter, h]

/-- C5 witness: the amended theorem applied to the default XGB capabilities
and to a capable scaler object. -/
theorem C5_witness :
    classifierSetter (some xgbCaps) = Except.ok xgbCaps ∧
    scalerSetter (some fitTransformOnlyCaps)
      = Except.ok (some fitTransformOnlyCaps) := by
  exact ⟨C5_setter_validation.2.1 xgbCaps rfl,
    C5_setter_validation.2.2.2.2.1 fitTransformOnlyCaps rfl⟩

/- ### C2: no self-leakage in the predictor matrix -/

theorem prepXCols_mem {st : MCState} {c : String} {col : Col}
    {xcols : List Col} (h : prepXCols st c col = Except.ok xcols) :
    ∀ p ∈ xcols,
      (col.dtype = Dtype.numeric →
        p ∈ st.data_dum.cols ∨ (p ∈ st.data_num.cols ∧ p.name ≠ c)) ∧
      (col.dtype = Dtype.object →
        p ∈ st.data_num.cols ∨
          (p ∈ st.data_dum.cols ∧ strStartsWith p.name (c ++ "_") = false)) := by
  intro p hp
  rw [prepXCols] at h
  split at h
  case isTrue hnum =>
    have hdt : col.dtype = Dtype.numeric := by
      cases hcd : col.dtype
      · rfl
      · rw [hcd] at hnum; cases hnum
    refine ⟨fun _ => ?_, fun hobj => ?_⟩
    swap
    · rw [hdt] at hobj; cases hobj
    split at h
    case isTrue h1 =>
      split at h
      case h_1 e heq => cases h
      case h_2 numCols heq =>
        rw [dfDrop] at heq
        split at heq
        case isFalse => cases heq
        case isTrue hall =>
          have hnumCols : numCols.cols
              = st.data_num.cols.filter (fun k => !([c].contains k.name)) := by
            cases heq; rfl
          split at h
          case isTrue hd =>
            cases h
            rcases List.mem_append.mp hp with hmem | hmem
            · rw [hnumCols] at hmem
              rcases List.mem_filter.mp hmem with ⟨hm, hname⟩
              refine Or.inr ⟨hm, ?_⟩
              intro hc
              rw [Bool.not_eq_true'] at hname
              rw [List.contains_cons] at hname
              simp [hc] at hname
            · exact Or.inl hmem
          case isFalse hd =>
            cases h
            rw [hnumCols] at hp
            rcases List.mem_filter.mp hp with ⟨hm, hname⟩
            refine Or.inr ⟨hm, ?_⟩
            intro hc
            rw [Bool.not_eq_true'] at hname
            rw [List.contains_cons] at hname
            simp [hc] at hname
    case isFalse h1 =>
      split at h
      case isTrue hd =>
        cases h
        exact Or.inl hp
      case isFalse hd => cases h
  case isFalse hnum =>
    have hdt : col.dtype = Dtype.object := by
      cases hcd : col.dtype
      · rw [hcd] at hnum; cases hnum rfl
      · rfl
    refine ⟨fun hn => ?_, fun _ => ?_⟩
    · rw [hdt] at hn; cases hn
    · simp only [] at h
      split at h
      case isTrue hd =>
        split at h
        case isTrue h1 =>
          cases h
          rcases List.mem_append.mp hp with hmem | hmem
          · exact Or.inl hmem
          · rcases List.mem_filter.mp hmem with ⟨hm, hname⟩
            rw [Bool.not_eq_true'] at hname
            exact Or.inr ⟨hm, hname⟩
        case isFalse h1 =>
          cases h
          rcases List.mem_filter.mp hp with ⟨hm, hname⟩
          rw [Bool.not_eq_true'] at hname
          exact Or.inr ⟨hm, hname⟩
      case isFalse hd =>
        split at h
        case isTrue h1 =>
          cases h
          exact Or.inl hp
        case isFalse h1 => cases h

/-- C2 counterexample: on the dataset `exX2` (numeric column `a_b` next to a
categorical column `a` with single category `b`) the predictor matrix built
for the numeric target `a_b` consists of exactly one column whose name is
`a_b` — the dummy expansion of `a` — so the column-name set of the predictor
matrix does not exclude the target's name, contradicting the claim's
"column set excludes c (when c is numeric)". -/
theorem C2_counterexample :
    (prep_classifier_cols (fitPre stubClf exX2) exX2 "a_b").map
        (fun pr => pr.1.map Col.name) = Except.ok ["a_b"] ∧
    (exX2.find? "a_b").map Col.dtype = some Dtype.numeric := by
  exact ⟨by decide, by decide⟩

/-- C2 (amended): the predictor matrix for a target `c` never contains a
column derived from `c` itself — when `c` is numeric every predictor column
is either a dummy column (necessarily derived from some categorical column,
not from `c`) or a numeric column whose name differs from `c`; when `c` is
categorical every predictor column is either a numeric column or a dummy
column whose name is not prefixed by `c_`.  (The claim's stronger name-set
reading fails only when a dummy column of a different categorical feature
happens to bear the name `c`, as in the counterexample.) -/
theorem C2_no_self_leakage (st : MCState) (X : DF) (c : String) (col : Col)
    (pr : List Col × List Nat)
    (hcol : X.find? c = some col)
    (h : prep_classifier_cols st X c = Except.ok pr) :
    (col.dtype = Dtype.numeric →
      ∀ p ∈ pr.1, p ∈ st.data_dum.cols ∨ (p ∈ st.data_num.cols ∧ p.name ≠ c)) ∧
    (col.dtype = Dtype.object →
      ∀ p ∈ pr.1, p ∈ st.data_num.cols ∨
        (p ∈ st.data_dum.cols ∧ strStartsWith p.name (c ++ "_") = false)) := by
  simp only [prep_classifier_cols, hcol] at h
  rcases hx : prepXCols st c col with e | xcols
  · simp only [hx] at h
    exact Except.noConfusion h
  · simp only [hx] at h
    rcases hy : st.data_mi.find? c with _ | y
    · simp only [hy] at h
      exact Except.noConfusion h
    · simp only [hy, Except.ok.injEq] at h
      cases h
      exact ⟨fun hdt p hp => (prepXCols_mem hx p hp).1 hdt,
        fun hdt p hp => (prepXCols_mem hx p hp).2 hdt⟩

/-- C2 witness: the amended theorem applied to the collision dataset and its
categorical target `a`, whose only predictor is the numeric column `a_b`. -/
theorem C2_witness :
    exX2.find? "a" = some ⟨"a", Dtype.object, [some (Val.cat "b")]⟩ ∧
    prep_classifier_cols (fitPre stubClf exX2) exX2 "a"
      = Except.ok (([⟨"a_b", Dtype.numeric, [some (Val.num 1)]⟩], [0])) ∧
    (∀ p ∈ [(⟨"a_b", Dtype.numeric, [some (Val.num 1)]⟩ : Col)],
      p ∈ (fitPre stubClf exX2).data_num.cols ∨
        (p ∈ (fitPre stubClf exX2).data_dum.cols ∧
          strStartsWith p.name ("a" ++ "_") = false)) := by
  refine ⟨by decide, by decide, ?_⟩
  exact (C2_no_self_leakage (fitPre stubClf exX2) exX2 "a"
      ⟨"a", Dtype.object, [some (Val.cat "b")]⟩
      (([⟨"a_b", Dtype.numeric, [some (Val.num 1)]⟩], [0]))
      (by decide) (by decide)).2 rfl

/- ### C4: predict-time column-set consistency check -/

theorem dfDrop_ok_of_contains {X : DF} {labels : List String}
    (h : ∀ nm ∈ labels, X.colNames.contains nm = true) :
    dfDrop X labels
      = Except.ok ⟨X.idx, X.cols.filter (fun c => !(labels.contains c.name))⟩ := by
  rw [dfDrop, if_pos (List.all_eq_true.mpr h)]

theorem colNames_filter (Y : DF) (p : String → Bool) :
    (List.map Col.name (Y.cols.filter (fun c => p c.name)))
      = (List.map Col.name Y.cols).filter p := by
  rw [List.filter_map]
  rfl

/-- C4: for a fitted instance, when the column set of the predict-time
dataset after removal of the fit-time-dropped columns differs from the
column set retained at fit time, both `predict` and `predict_proba` raise
the consistency error — the short-circuit of `Except` means no per-column
prediction is attempted.  (The hypothesis that the dropped columns are still
present keeps the in-place `X.drop` from raising its own `KeyError`
first.) -/
theorem C4_consistency_error (st : MCState) (Y : DF) (nd : Bool)
    (hfit : st.fitted = true)
    (hnc : ∀ nm ∈ st.nc, Y.colNames.contains nm = true)
    (hdiff : ¬((predictCols st Y).filter
          (fun s => !(st.data_mi.colNames.contains s)) = []
        ∧ st.data_mi.colNames.filter
          (fun s => !((predictCols st Y).contains s)) = [])) :
    predictM st Y nd = Except.error mismatchMsg ∧
    predictProbaM st Y nd = Except.error mismatchMsg := by
  have hcond : ∀ X1 : DF, X1.colNames = predictCols st Y →
      ∀ w1, prepAfterDrop st X1 nd w1 = Except.error mismatchMsg := by
    intro X1 hX1 w1
    rw [prepAfterDrop, if_neg]
    intro hc
    rw [Bool.and_eq_true] at hc
    exact hdiff ⟨by rw [← hX1]; exact List.isEmpty_iff.mp hc.1,
      by rw [← hX1]; exact List.isEmpty_iff.mp hc.2⟩
  have hpp : prep_predictor st Y nd = Except.error mismatchMsg := by
    rw [prep_predictor, if_pos hfit]
    by_cases hnce : st.nc.isEmpty
    · rw [if_pos hnce]
      have hnc0 : st.nc = [] := List.isEmpty_iff.mp hnce
      refine hcond Y ?_ []
      rw [predictCols, hnc0]
      rw [show (fun s => !(List.contains ([] : List String) s))
          = (fun _ : String => true) from rfl]
      exact (List.filter_true Y.colNames).symm
    · rw [if_neg hnce, dfDrop_ok_of_contains hnc]
      refine hcond _ ?_ _
      exact colNames_filter Y (fun s => !(st.nc.contains s))
  constructor
  · rw [predictM, hpp]
  · rw [predictProbaM, hpp]

/-- C4 witness: the theorem applied to a fitted state over `exX` and the
column-mismatched dataset `exXz`. -/
theorem C4_witness :
    predictM wSt4 exXz true = Except.error mismatchMsg ∧
    predictProbaM wSt4 exXz true = Except.error mismatchMsg := by
  exact C4_consistency_error wSt4 exXz true (by decide) (by decide) (by decide)

/- ### C3: zero-column predictor matrix aborts fit / predict -/

theorem fitM_none (st0 : MCState) (X : DF) (hsc : st0.scaler = none) :
    fitM st0 X
      = match exceptMap (fitOne (prep_dataframes st0 X).1 X)
          (prep_dataframes st0 X).1.data_mi.cols with
        | Except.error e => Except.error e
        | Except.ok stats =>
            Except.ok ⟨{ (prep_dataframes st0 X).1 with
              statistics := stats, fitted := true }, X,
              (prep_dataframes st0 X).2⟩ := by
  have hs : (prep_dataframes st0 X).1.scaler = none := by
    rw [prep_dataframes]
    exact hsc
  rw [fitM]
  simp only [hs, Option.isSome_none, Bool.false_eq_true, if_false]

theorem find?_key_some {α : Type} (key : α → String) {l : List α}
    {c : String} (h : c ∈ l.map key) :
    ∃ b, l.find? (fun k => key k == c) = some b ∧ b ∈ l ∧ key b = c := by
  rcases List.mem_map.mp h with ⟨a, ha, rfl⟩
  have hs : (l.find? (fun k => key k == key a)).isSome = true :=
    List.find?_isSome.mpr ⟨a, ha, by simp⟩
  rcases Option.isSome_iff_exists.mp hs with ⟨b, hb⟩
  refine ⟨b, hb, List.mem_of_find?_eq_some hb, ?_⟩
  have := List.find?_some hb
  simpa using this

theorem prepXCols_ok_or_need (st : MCState) (c : String) (col : Col)
    (hdrop : (col.dtype == Dtype.numeric) = true →
      st.data_num.cols.length > 1 → st.data_num.colNames.contains c = true) :
    (∃ xc, prepXCols st c col = Except.ok xc) ∨
      prepXCols st c col = Except.error needPredictorMsg := by
  rw [prepXCols]
  by_cases hdt : (col.dtype == Dtype.numeric) = true
  · rw [if_pos hdt]
    by_cases h1 : st.data_num.cols.length > 1
    · have hc : dfDrop st.data_num [c]
          = Except.ok ⟨st.data_num.idx, st.data_num.cols.filter
              (fun k => !([c].contains k.name))⟩ := by
        refine dfDrop_ok_of_contains ?_
        intro nm hnm
        rw [List.mem_singleton] at hnm
        rw [hnm]
        exact hdrop hdt h1
      rw [if_pos h1, hc]
      dsimp only
      by_cases h2 : st.data_dum.cols.length > 0
      · rw [if_pos h2]; exact Or.inl ⟨_, rfl⟩
      · rw [if_neg h2]; exact Or.inl ⟨_, rfl⟩
    · rw [if_neg h1]
      by_cases h2 : st.data_dum.cols.length > 0
      · rw [if_pos h2]; exact Or.inl ⟨_, rfl⟩
      · rw [if_neg h2]; exact Or.inr rfl
  · rw [if_neg hdt]
    simp only []
    by_cases h2 : (st.data_dum.cols.filter
        (fun k => !(strStartsWith k.name (c ++ "_")))).length > 0
    · rw [if_pos h2]
      by_cases h1 : st.data_num.cols.length > 0
      · rw [if_pos h1]; exact Or.inl ⟨_, rfl⟩
      · rw [if_neg h1]; exact Or.inl ⟨_, rfl⟩
    · rw [if_neg h2]
      by_cases h1 : st.data_num.cols.length > 0
      · rw [if_pos h1]; exact Or.inl ⟨_, rfl⟩
      · rw [if_neg h1]; exact Or.inr rfl

theorem prepXCols_error_of_zeroPred {Y : DF} (st : MCState) (c : String)
    (col : Col) (hn : st.data_num = numBlock Y) (hd : st.data_dum = dumBlock Y)
    (hz : zeroPredB Y col c = true) :
    prepXCols st c col = Except.error needPredictorMsg := by
  rw [prepXCols]
  by_cases hdt : (col.dtype == Dtype.numeric) = true
  · rw [zeroPredB, if_pos hdt, Bool.and_eq_true] at hz
    have h1 : ¬(st.data_num.cols.length > 1) := by
      rw [hn]
      have := of_decide_eq_true hz.1
      omega
    have h2 : ¬(st.data_dum.cols.length > 0) := by
      rw [hd]
      have : (dumBlock Y).cols.length = 0 := by simpa using hz.2
      omega
    rw [if_pos hdt, if_neg h1, if_neg h2]
  · rw [zeroPredB, if_neg hdt, Bool.and_eq_true] at hz
    have h2 : ¬((st.data_dum.cols.filter
        (fun k => !(strStartsWith k.name (c ++ "_")))).length > 0) := by
      rw [hd]
      have : ((dumBlock Y).cols.filter
          (fun k => !(strStartsWith k.name (c ++ "_")))).length = 0 := by
        simpa using hz.1
      omega
    have h1 : ¬(st.data_num.cols.length > 0) := by
      rw [hn]
      have : (numBlock Y).cols.length = 0 := by simpa using hz.2
      omega
    rw [if_neg hdt]
    simp only []
    rw [if_neg h2, if_neg h1]

theorem retained_mem_name {X : DF} {c : String}
    (h : c ∈ (retainedDF X).colNames) : c ∈ X.colNames := by
  rcases List.mem_map.mp h with ⟨cX, hcX, rfl⟩
  exact List.mem_map_of_mem Col.name (List.mem_of_mem_filter hcX)

theorem mi_mem_name {X : DF} {mc : MICol}
    (h : mc ∈ (isnullMI (retainedDF X)).cols) :
    mc.name ∈ (retainedDF X).colNames := by
  rcases List.mem_map.mp h with ⟨cX, hcX, hceq⟩
  rw [← hceq]
  exact List.mem_map_of_mem Col.name hcX

theorem prep_ok_or_need {X : DF} (st : MCState) (hnodup : X.colNames.Nodup)
    (hmi : st.data_mi = isnullMI (retainedDF X))
    (hn : st.data_num = numBlock X) (hd : st.data_dum = dumBlock X) :
    ∀ mc ∈ st.data_mi.cols,
      (∃ pr, prep_classifier_cols st X mc.name = Except.ok pr) ∨
        prep_classifier_cols st X mc.name = Except.error needPredictorMsg := by
  intro mc hmc
  have hmc' : mc ∈ (isnullMI (retainedDF X)).cols := by rw [← hmi]; exact hmc
  have hnameX' : mc.name ∈ (retainedDF X).colNames := mi_mem_name hmc'
  have hnameX : mc.name ∈ X.colNames := retained_mem_name hnameX'
  rcases find?_key_some Col.name hnameX with ⟨colX, hfind, hmemX, hkey⟩
  have hy : ∃ y, st.data_mi.find? mc.name = some y := by
    have hs : (st.data_mi.cols.find?
        (fun k => k.name == mc.name)).isSome = true :=
      List.find?_isSome.mpr ⟨mc, hmc, by simp⟩
    rcases Option.isSome_iff_exists.mp hs with ⟨b, hb⟩
    exact ⟨b.cells, by rw [MI.find?, hb]; rfl⟩
  have hdrop : (colX.dtype == Dtype.numeric) = true →
      st.data_num.cols.length > 1 →
      st.data_num.colNames.contains mc.name = true := by
    intro hdt _
    rcases List.mem_map.mp hnameX' with ⟨colX', hcolX', hkey'⟩
    have hXX : colX' = colX := by
      refine List.inj_on_of_nodup_map hnodup
        (List.mem_of_mem_filter hcolX') hmemX ?_
      rw [hkey', hkey]
    have hmemNum : colX ∈ (numBlock X).cols := by
      rw [numBlock, dataNumOf]
      refine List.mem_filter.mpr ⟨?_, hdt⟩
      rw [← hXX]
      exact hcolX'
    rw [hn]
    have hname : mc.name ∈ (numBlock X).colNames := by
      rw [← hkey]
      exact List.mem_map_of_mem Col.name hmemNum
    exact List.elem_iff.mpr hname
  rcases hy with ⟨y, hy⟩
  have hfind' : X.find? mc.name = some colX := hfind
  rcases prepXCols_ok_or_need st mc.name colX hdrop with ⟨xc, hxc⟩ | hxc
  · refine Or.inl ⟨(xc, y), ?_⟩
    simp only [prep_classifier_cols, hfind', hxc, hy]
  · refine Or.inr ?_
    simp only [prep_classifier_cols, hfind', hxc]

/-- C3: when the predictor matrix for a retained column would have zero
columns (no other numeric column and no dummy column outside the
target's own prefix), `fit` raises the explicit `ValueError` of
`_prep_classifier_cols` and yields no result; so does `predict` with
`new_data` on a fitted instance whose column set matches, before producing
any prediction table. -/
theorem C3_zero_predictors_abort (cl : Classifier) (X : DF) (mc : MICol)
    (col : Col)
    (hnodup : X.colNames.Nodup)
    (hmem : mc ∈ (isnullMI (retainedDF X)).cols)
    (hfind : X.find? mc.name = some col)
    (hempty : zeroPredB X col mc.name = true) :
    fitM (initState cl none) X = Except.error needPredictorMsg ∧
    (∀ st : MCState, st.fitted = true → st.nc = [] → st.scaler = none →
      (X.colNames.filter
        (fun s => !(st.data_mi.colNames.contains s))).isEmpty = true →
      (st.data_mi.colNames.filter
        (fun s => !(X.colNames.contains s))).isEmpty = true →
      (∀ mc' ∈ (isnullMI (retainedDF X)).cols,
        (alookup st.statistics mc'.name).isSome = true) →
      predictM st X true = Except.error needPredictorMsg) := by
  have hprepE : ∀ st : MCState, st.data_num = numBlock X →
      st.data_dum = dumBlock X →
      prep_classifier_cols st X mc.name = Except.error needPredictorMsg := by
    intro st hn hd
    simp only [prep_classifier_cols, hfind,
      prepXCols_error_of_zeroPred st mc.name col hn hd hempty]
  constructor
  · rw [fitM_none (initState cl none) X rfl]
    have hb : (prep_dataframes (initState cl none) X).1.data_mi
        = isnullMI (retainedDF X) := rfl
    have hn : (prep_dataframes (initState cl none) X).1.data_num
        = numBlock X := rfl
    have hd : (prep_dataframes (initState cl none) X).1.data_dum
        = dumBlock X := rfl
    have herr : exceptMap
        (fitOne (prep_dataframes (initState cl none) X).1 X)
        (prep_dataframes (initState cl none) X).1.data_mi.cols
        = Except.error needPredictorMsg := by
      apply exceptMap_error_of_mem
      · intro mc' hmc'
        rcases prep_ok_or_need (prep_dataframes (initState cl none) X).1
            hnodup hb hn hd mc' hmc' with ⟨pr, hpr⟩ | hpr
        · exact Or.inl ⟨_, by rw [fitOne, hpr]⟩
        · exact Or.inr (by rw [fitOne, hpr])
      · rw [hb]; exact hmem
      · rw [fitOne, hprepE _ hn hd]
    rw [herr]
  · intro st hf hnc hsc hd1 hd2 hstats
    have hpo : prep_predictor st X true
        = Except.ok ⟨(prep_dataframes st X).1, X,
            [] ++ (prep_dataframes st X).2⟩ := by
      rw [prep_predictor, if_pos hf, if_pos (by rw [hnc]; rfl)]
      rw [prepAfterDrop, if_pos (by rw [hd1, hd2]; rfl)]
      have hs : (prep_dataframes st X).1.scaler = none := by
        rw [prep_dataframes]; exact hsc
      simp only [if_true, hs, Option.isSome_none, Bool.false_eq_true, if_false]
    have hb : (prep_dataframes st X).1.data_mi
        = isnullMI (retainedDF X) := rfl
    have hn : (prep_dataframes st X).1.data_num = numBlock X := rfl
    have hd : (prep_dataframes st X).1.data_dum = dumBlock X := rfl
    have herr : exceptMap
        (predictColFor (prep_dataframes st X).1 X
          (prep_dataframes st X).1.data_mi.idx.length)
        (prep_dataframes st X).1.data_mi.cols
        = Except.error needPredictorMsg := by
      apply exceptMap_error_of_mem
      · intro mc' hmc'
        rcases prep_ok_or_need (prep_dataframes st X).1
            hnodup hb hn hd mc' hmc' with ⟨pr, hpr⟩ | hpr
        · have hss : (alookup st.statistics mc'.name).isSome = true := by
            refine hstats mc' ?_
            rw [← hb]; exact hmc'
          rcases Option.isSome_iff_exists.mp hss with ⟨f, hf'⟩
          have hl : alookup (prep_dataframes st X).1.statistics mc'.name
              = some f := by
            rw [show (prep_dataframes st X).1.statistics = st.statistics
              from rfl, hf']
          exact Or.inl ⟨_, by rw [predictColFor, hpr, hl]⟩
        · exact Or.inr (by rw [predictColFor, hpr])
      · rw [hb]; exact hmem
      · rw [predictColFor, hprepE _ hn hd]
    simp only [predictM, hpo, herr]

/-- C3 witness: the single numeric column of `exX1` has no predictors, so
`fit` aborts, and so does `predict` on a matching fitted state. -/
theorem C3_witness :
    fitM (initState stubClf none) exX1 = Except.error needPredictorMsg ∧
    predictM wSt3 exX1 true = Except.error needPredictorMsg := by
  have h := C3_zero_predictors_abort stubClf exX1 ⟨("a"), [0, 1]⟩
    ⟨("a"), Dtype.numeric, [some (Val.num 1), none]⟩
    (by decide) (by decide) (by decide) (by decide)
  exact ⟨h.1, h.2 wSt3 rfl rfl rfl (by decide) (by decide) (by decide)⟩

/- ### C8: per-column fitting is order-independent -/

theorem fitOne_name_eq (st : MCState) (X : DF) (mc mc' : MICol)
    (h : mc.name = mc'.name) : fitOne st X mc = fitOne st X mc' := by
  cases mc with
  | mk n cells =>
      cases mc' with
      | mk n' cells' =>
          simp only [] at h
          subst h
          rfl

theorem fitOne_ok_key {st : MCState} {X : DF} {mc : MICol}
    {b : String × FittedClf} (h : fitOne st X mc = Except.ok b) :
    b.1 = mc.name := by
  rw [fitOne] at h
  cases hp : prep_classifier_cols st X mc.name with
  | error e => rw [hp] at h; cases h
  | ok pr =>
      rw [hp] at h
      cases h
      rfl

theorem fitOne_ok_shape {st : MCState} {X : DF} {mc : MICol}
    {b : String × FittedClf} (h : fitOne st X mc = Except.ok b) :
    ∃ pr, prep_classifier_cols st X mc.name = Except.ok pr ∧
      b = (mc.name, st.classifier.fitF
        (colsValues st.data_mi.idx.length pr.1) pr.2) := by
  rw [fitOne] at h
  cases hp : prep_classifier_cols st X mc.name with
  | error e => rw [hp] at h; cases h
  | ok pr =>
      rw [hp] at h
      cases h
      exact ⟨pr, rfl, rfl⟩

theorem alookup_fitStats {st : MCState} {X : DF} {l : List MICol}
    {s : List (String × FittedClf)}
    (h : exceptMap (fitOne st X) l = Except.ok s) :
    ∀ c : String, alookup s c
      = if c ∈ l.map MICol.name then
          (fitOne st X ⟨c, []⟩).toOption.map Prod.snd
        else none := by
  induction l generalizing s with
  | nil =>
      cases h
      intro c
      rw [if_neg (by simp)]
      rfl
  | cons mc rest ih =>
      simp only [exceptMap] at h
      cases hx : fitOne st X mc with
      | error e => rw [hx] at h; cases h
      | ok b =>
          rw [hx] at h
          cases hrest : exceptMap (fitOne st X) rest with
          | error e => rw [hrest] at h; cases h
          | ok bs =>
              rw [hrest] at h
              cases h
              intro c
              have hkey := fitOne_ok_key hx
              by_cases hbc : mc.name = c
              · have hfind : (b :: bs).find?
                    (fun p : String × FittedClf => p.1 == c) = some b := by
                  refine List.find?_cons_of_pos bs ?_
                  show (b.1 == c) = true
                  rw [hkey, hbc]
                  simp
                rw [alookup, hfind]
                rw [if_pos (by
                  rw [List.map_cons, ← hbc]
                  exact List.mem_cons_self _ _)]
                have hfc : fitOne st X (⟨c, []⟩ : MICol) = Except.ok b := by
                  rw [← fitOne_name_eq st X mc ⟨c, []⟩ (by simpa using hbc)]
                  exact hx
                rw [hfc]
                rfl
              · have hfind : (b :: bs).find?
                    (fun p : String × FittedClf => p.1 == c)
                    = bs.find? (fun p : String × FittedClf => p.1 == c) := by
                  refine List.find?_cons_of_neg bs ?_
                  show ¬((b.1 == c) = true)
                  rw [hkey]
                  simp [hbc]
                rw [alookup, hfind]
                rw [show (List.find? (fun p : String × FittedClf => p.1 == c)
                      bs).map Prod.snd = alookup bs c from rfl]
                rw [ih hrest c]
                have hiff : (c ∈ (mc :: rest).map MICol.name)
                    ↔ (c ∈ rest.map MICol.name) := by
                  rw [List.map_cons, List.mem_cons]
                  exact ⟨fun h => h.resolve_left (fun hh => hbc hh.symm),
                    fun h => Or.inr h⟩
                rw [if_congr hiff rfl rfl]

/-- C8: fitting is per-column independent — every retained column's entry in
the fitted-statistics mapping is the configured classifier cloned and fitted
on exactly that column's predictor matrix and missingness-indicator vector,
and running the fitting loop over any permutation of the retained columns
produces a mapping with identical lookups. -/
theorem C8_fit_order_independent (st0 : MCState) (X : DF) (fr : FitOut)
    (l' : List MICol) (s' : List (String × FittedClf))
    (hsc : st0.scaler = none)
    (hfit : fitM st0 X = Except.ok fr)
    (hperm : ((prep_dataframes st0 X).1.data_mi.cols).Perm l')
    (h' : exceptMap (fitOne (prep_dataframes st0 X).1 X) l' = Except.ok s') :
    (∀ c, alookup fr.st.statistics c = alookup s' c) ∧
    (∀ mc ∈ (prep_dataframes st0 X).1.data_mi.cols,
      ∃ pr, prep_classifier_cols (prep_dataframes st0 X).1 X mc.name
          = Except.ok pr ∧
        alookup fr.st.statistics mc.name
          = some ((prep_dataframes st0 X).1.classifier.fitF
              (colsValues (prep_dataframes st0 X).1.data_mi.idx.length pr.1)
              pr.2)) := by
  rw [fitM_none st0 X hsc] at hfit
  cases hm : exceptMap (fitOne (prep_dataframes st0 X).1 X)
      (prep_dataframes st0 X).1.data_mi.cols with
  | error e => rw [hm] at hfit; cases hfit
  | ok stats =>
      rw [hm] at hfit
      cases hfit
      constructor
      · intro c
        rw [alookup_fitStats hm c, alookup_fitStats h' c]
        rw [if_congr ((hperm.map MICol.name).mem_iff) rfl rfl]
      · intro mc hmc
        rcases exceptMap_ok_forall hm mc hmc with ⟨b, hb⟩
        rcases fitOne_ok_shape hb with ⟨pr, hpr, hbv⟩
        refine ⟨pr, hpr, ?_⟩
        rw [alookup_fitStats hm mc.name]
        rw [if_pos (List.mem_map_of_mem MICol.name hmc)]
        rw [fitOne_name_eq (prep_dataframes st0 X).1 X
          (⟨mc.name, []⟩ : MICol) mc rfl]
        rw [hb, hbv]
        rfl

/-- C8 witness: fitting the columns of `exX` in reverse order produces a
statistics mapping with the same lookups as the actual fit. -/
theorem C8_witness :
    ∃ fr s',
      fitM (initState stubClf none) exX = Except.ok fr ∧
      exceptMap (fitOne (prep_dataframes (initState stubClf none) exX).1 exX)
        ((prep_dataframes (initState stubClf none) exX).1.data_mi.cols).reverse
        = Except.ok s' ∧
      (∀ c, alookup fr.st.statistics c = alookup s' c) := by
  cases hfit : fitM (initState stubClf none) exX with
  | error e =>
      have hok : (fitM (initState stubClf none) exX).isOk = true := by decide
      rw [hfit] at hok
      exact Bool.noConfusion hok
  | ok fr =>
      cases hm : exceptMap
          (fitOne (prep_dataframes (initState stubClf none) exX).1 exX)
          ((prep_dataframes
            (initState stubClf none) exX).1.data_mi.cols).reverse with
      | error e =>
          have hok : (exceptMap
              (fitOne (prep_dataframes (initState stubClf none) exX).1 exX)
              ((prep_dataframes
                (initState stubClf none) exX).1.data_mi.cols).reverse).isOk
              = true := by decide
          rw [hm] at hok
          exact Bool.noConfusion hok
      | ok s' =>
          exact ⟨fr, s', rfl, rfl,
            (C8_fit_order_independent (initState stubClf none) exX fr _ s'
              rfl hfit (List.reverse_perm _).symm hm).1⟩

/- ### C7: the caller's dataset is read-only (except the in-place drop) -/

theorem fitM_ok_elim {st0 : MCState} {X : DF} {fr : FitOut}
    (hsc : st0.scaler = none) (h : fitM st0 X = Except.ok fr) :
    ∃ stats, exceptMap (fitOne (prep_dataframes st0 X).1 X)
        (prep_dataframes st0 X).1.data_mi.cols = Except.ok stats ∧
      fr = ⟨{ (prep_dataframes st0 X).1 with
        statistics := stats, fitted := true }, X,
        (prep_dataframes st0 X).2⟩ := by
  rw [fitM_none st0 X hsc] at h
  cases hm : exceptMap (fitOne (prep_dataframes st0 X).1 X)
      (prep_dataframes st0 X).1.data_mi.cols with
  | error e => rw [hm] at h; cases h
  | ok stats =>
      rw [hm] at h
      cases h
      exact ⟨stats, rfl, rfl⟩

theorem prep_predictor_ok_x {st : MCState} {X : DF} {nd : Bool}
    {po : PrepOut} (hnc : st.nc = [])
    (h : prep_predictor st X nd = Except.ok po) : po.x = X := by
  rw [prep_predictor] at h
  by_cases hf : st.fitted = true
  · rw [if_pos hf, if_pos (by rw [hnc]; rfl)] at h
    rw [prepAfterDrop] at h
    by_cases hc : ((X.colNames.filter
          (fun s => !(st.data_mi.colNames.contains s))).isEmpty
        && (st.data_mi.colNames.filter
          (fun s => !(X.colNames.contains s))).isEmpty) = true
    · rw [if_pos hc] at h
      cases h
      rfl
    · rw [if_neg hc] at h
      cases h
  · rw [if_neg hf] at h
    cases h

theorem predictM_ok_xAfter {st : MCState} {X : DF} {nd : Bool}
    {out : PredOut} (hnc : st.nc = [])
    (h : predictM st X nd = Except.ok out) : out.xAfter = X := by
  rw [predictM] at h
  cases hpp : prep_predictor st X nd with
  | error e => rw [hpp] at h; cases h
  | ok po =>
      rw [hpp] at h
      dsimp only at h
      cases hm : exceptMap (predictColFor po.st po.x po.st.data_mi.idx.length)
          po.st.data_mi.cols with
      | error e => rw [hm] at h; cases h
      | ok preds =>
          rw [hm] at h
          cases h
          exact prep_predictor_ok_x hnc hpp

theorem predictProbaM_ok_xAfter {st : MCState} {X : DF} {nd : Bool}
    {out : PredOut} (hnc : st.nc = [])
    (h : predictProbaM st X nd = Except.ok out) : out.xAfter = X := by
  rw [predictProbaM] at h
  cases hpp : prep_predictor st X nd with
  | error e => rw [hpp] at h; cases h
  | ok po =>
      rw [hpp] at h
      dsimp only at h
      cases hm : exceptMap (probaColFor po.st po.x po.st.data_mi.idx.length)
          po.st.data_mi.cols with
      | error e => rw [hm] at h; cases h
      | ok preds =>
          rw [hm] at h
          cases h
          exact prep_predictor_ok_x hnc hpp

theorem genTestIndicesM_ok_xAfter {st0 : MCState} {X : DF} {t : ℚ}
    {nd ue : Bool} {g : GenOut} (hsc : st0.scaler = none)
    (hdrop : (nan_col_dropper X).2 = [])
    (h : genTestIndicesM st0 X t nd ue = Except.ok g) : g.xAfter = X := by
  rw [genTestIndicesM] at h
  cases ue with
  | true =>
      rw [if_pos rfl] at h
      rw [genTestLoop] at h
      dsimp only at h
      cases hm : exceptMap (testIndicesFor st0 t) st0.data_mi.cols with
      | error e => rw [hm] at h; cases h
      | ok ti => rw [hm] at h; cases h; rfl
  | false =>
      rw [if_neg (by simp)] at h
      cases hfp : fitPredictProbaM st0 X nd with
      | error e => rw [hfp] at h; cases h
      | ok po =>
          rw [hfp] at h
          dsimp only at h
          have hpo : po.xAfter = X := by
            rw [fitPredictProbaM] at hfp
            cases hfit : fitM st0 X with
            | error e => rw [hfit] at hfp; cases hfp
            | ok fr =>
                rw [hfit] at hfp
                dsimp only at hfp
                cases hpp : predictProbaM fr.st fr.xAfter nd with
                | error e => rw [hpp] at hfp; cases hfp
                | ok po' =>
                    rw [hpp] at hfp
                    cases hfp
                    rcases fitM_ok_elim hsc hfit with ⟨stats, _, hfr⟩
                    have hnc : fr.st.nc = [] := by
                      rw [hfr]
                      exact hdrop
                    have hx : fr.xAfter = X := by rw [hfr]
                    show po'.xAfter = X
                    rw [← hx]
                    exact predictProbaM_ok_xAfter hnc hpp
          rw [genTestLoop] at h
          dsimp only at h
          cases hm : exceptMap (testIndicesFor po.st t) po.st.data_mi.cols with
          | error e => rw [hm] at h; cases h
          | ok ti =>
              rw [hm] at h
              cases h
              exact hpo

/-- C7 counterexample: after fitting `exXz` (whose column `z` is entirely
null and so is dropped), calling `predict` on the caller's dataset removes
`z` from it in place (`X.drop(self._nc, axis=1, inplace=True)`), so the
caller's dataset no longer has the columns it had before the call. -/
theorem C7_counterexample :
    ((fitM (initState stubClf none) exXz).bind
        (fun fr => predictM fr.st exXz true)).map
      (fun out => out.xAfter.colNames) = Except.ok (["a", "b"]) ∧
    exXz.colNames = ["a", "b", "z"] := by
  exact ⟨by decide, by decide⟩

/-- C7 (amended): every core operation other than `gen_test_df` with
`in_place` leaves the caller's dataset unchanged, *except* that `predict`,
`predict_proba` and `gen_test_indices` drop the fit-time-dropped columns
from the caller's dataset in place; when no column was dropped at fit time
(no entirely-null column), the caller's dataset is returned exactly as it
was after `fit`, `predict`, `predict_proba` and `gen_test_indices`, and
`gen_test_df` with `in_place=false` never touches the caller's dataset. -/
theorem C7_read_only_amended :
    (∀ (st0 : MCState) (X : DF) (fr : FitOut), st0.scaler = none →
      fitM st0 X = Except.ok fr → fr.xAfter = X) ∧
    (∀ (st : MCState) (X : DF) (nd : Bool) (out : PredOut), st.nc = [] →
      predictM st X nd = Except.ok out → out.xAfter = X) ∧
    (∀ (st : MCState) (X : DF) (nd : Bool) (out : PredOut), st.nc = [] →
      predictProbaM st X nd = Except.ok out → out.xAfter = X) ∧
    (∀ (st0 : MCState) (X : DF) (t : ℚ) (nd ue : Bool) (g : GenOut),
      st0.scaler = none → (nan_col_dropper X).2 = [] →
      genTestIndicesM st0 X t nd ue = Except.ok g → g.xAfter = X) ∧
    (∀ (st0 : MCState) (X : DF) (t m : ℚ) (nd ue : Bool) (out : TestDFOut),
      genTestDFM st0 X t m false nd ue = Except.ok out → out.callerX = X) := by
  refine ⟨?_, ?_, ?_, ?_, ?_⟩
  · intro st0 X fr hsc h
    rcases fitM_ok_elim hsc h with ⟨stats, _, hfr⟩
    rw [hfr]
  · intro st X nd out hnc h
    exact predictM_ok_xAfter hnc h
  · intro st X nd out hnc h
    exact predictProbaM_ok_xAfter hnc h
  · intro st0 X t nd ue g hsc hdrop h
    exact genTestIndicesM_ok_xAfter hsc hdrop h
  · intro st0 X t m nd ue out h
    rw [genTestDFM] at h
    cases hg : genTestIndicesM st0 X t nd ue with
    | error e => rw [hg] at h; cases h
    | ok g =>
        rw [hg] at h
        dsimp only at h
        cases hm : maskCols g.st.test_indices g.xAfter.idx
            ⌊m * (g.xAfter.nrows : ℚ)⌋ m g.xAfter.cols with
        | error e => rw [hm] at h; cases h
        | ok pr =>
            rw [hm] at h
            cases h
            rfl

/-- C7 witness: on `exX` (no entirely-null column) `gen_test_indices`
returns the caller's dataset untouched. -/
theorem C7_witness :
    (genTestIndicesM (initState stubClf none) exX (1/2) false false).map
      (fun g => g.xAfter) = Except.ok exX := by
  cases hg : genTestIndicesM (initState stubClf none) exX (1/2) false false with
  | error e =>
      have hok : (genTestIndicesM
          (initState stubClf none) exX (1/2) false false).isOk = true := by
        decide
      rw [hg] at hok
      exact Bool.noConfusion hok
  | ok g =>
      have hx : g.xAfter = exX :=
        C7_read_only_amended.2.2.2.1 (initState stubClf none) exX (1/2)
          false false g rfl (by decide) hg
      rw [Except.map, hx]

/- ### C10: fresh positional result index; default-index precondition -/

/-- C10: the table `predict_proba` returns always carries a fresh positional
row index `0..n-1` (`pd.DataFrame` built from a bare array), whatever the
input dataset's row index was; consequently the label-based lookup of
`gen_test_indices` is only well-defined for default-indexed input — on the
concrete dataset `exXbad`, whose row labels are `[5, 6, 7]`, the lookup of
the input's non-missing labels in the probability table raises. -/
theorem C10_fresh_positional_index :
    (∀ (st : MCState) (X : DF) (nd : Bool) (out : PredOut),
      predictProbaM st X nd = Except.ok out →
      out.result.idx = List.range out.result.idx.length) ∧
    (genTestIndicesM (initState stubClf none) exXbad (1/2) false false).map
        (fun g => g.xAfter)
      = Except.error ("KeyError: label not in probability table") := by
  constructor
  · intro st X nd out h
    rw [predictProbaM] at h
    cases hpp : prep_predictor st X nd with
    | error e => rw [hpp] at h; cases h
    | ok po =>
        rw [hpp] at h
        dsimp only at h
        cases hm : exceptMap
            (probaColFor po.st po.x po.st.data_mi.idx.length)
            po.st.data_mi.cols with
        | error e => rw [hm] at h; cases h
        | ok preds =>
            rw [hm] at h
            cases h
            show (assemblePreds po.x po.st.data_mi.idx.length preds).idx
              = List.range (assemblePreds po.x
                  po.st.data_mi.idx.length preds).idx.length
            rw [assemblePreds]
            rw [List.length_range]
  · decide

/-- C10 witness: fitting and predicting probabilities on the non-default
indexed `exXbad` succeeds and yields a table with positional index, distinct
from the input's labels. -/
theorem C10_witness :
    ∃ fr out, fitM (initState stubClf none) exXbad = Except.ok fr ∧
      predictProbaM fr.st exXbad false = Except.ok out ∧
      out.result.idx = List.range out.result.idx.length ∧
      exXbad.idx = [5, 6, 7] := by
  have hok2 : ((fitM (initState stubClf none) exXbad).bind
      (fun fr => predictProbaM fr.st exXbad false)).isOk = true := by decide
  cases hfit : fitM (initState stubClf none) exXbad with
  | error e =>
      rw [hfit] at hok2
      exact Bool.noConfusion hok2
  | ok fr =>
      rw [hfit] at hok2
      have hok3 : (predictProbaM fr.st exXbad false).isOk = true := hok2
      cases hpp : predictProbaM fr.st exXbad false with
      | error e =>
          rw [hpp] at hok3
          exact Bool.noConfusion hok3
      | ok out =>
          exact ⟨fr, out, rfl, hpp,
            C10_fresh_positional_index.1 fr.st exXbad false out hpp, rfl⟩

/- ### C1 support: structural facts about the preprocessing pipeline -/

theorem exceptMap_ok_mem_rev {α β : Type} {f : α → Except String β}
    {l : List α} {s : List β} (h : exceptMap f l = Except.ok s) :
    ∀ b ∈ s, ∃ a ∈ l, f a = Except.ok b := by
  induction l generalizing s with
  | nil =>
      cases h
      intro b hb
      cases hb
  | cons x xs ih =>
      simp only [exceptMap] at h
      cases hx : f x with
      | error e => rw [hx] at h; cases h
      | ok b0 =>
          rw [hx] at h
          cases hxs : exceptMap f xs with
          | error e => rw [hxs] at h; cases h
          | ok bs =>
              rw [hxs] at h
              cases h
              intro b hb
              rcases List.mem_cons.mp hb with rfl | hmem
              · exact ⟨x, List.mem_cons_self x xs, hx⟩
              · rcases ih hxs b hmem with ⟨a, ha, hfa⟩
                exact ⟨a, List.mem_cons_of_mem x ha, hfa⟩

theorem map_some_num_getD (v : List ℚ) (r : Nat) (hr : r < v.length) :
    (v.map (fun q => some (Val.num q))).getD r none
      = some (Val.num (v.getD r 0)) := by
  induction v generalizing r with
  | nil => cases hr
  | cons q qs ih =>
      cases r with
      | zero => rfl
      | succ k =>
          rw [List.map_cons, List.getD_cons_succ, List.getD_cons_succ]
          exact ih k (by simpa using hr)

theorem isnullMI_colNames (Y : DF) : (isnullMI Y).colNames = Y.colNames := by
  rw [isnullMI, MI.colNames, DF.colNames]
  rw [List.map_map]
  rfl

theorem isnullMI_idx (Y : DF) : (isnullMI Y).idx = Y.idx := rfl

theorem retainedDF_idx (X : DF) : (retainedDF X).idx = X.idx := rfl

theorem retainedDF_cols_sub {X : DF} {c : Col} (h : c ∈ (retainedDF X).cols) :
    c ∈ X.cols :=
  List.mem_of_mem_filter h

theorem retainedDF_colNames_nodup {X : DF} (h : X.colNames.Nodup) :
    (retainedDF X).colNames.Nodup := by
  rw [retainedDF, nan_col_dropper]
  show ((X.cols.filter (fun c => !(c.isAllNull))).map Col.name).Nodup
  have hsub : (X.cols.filter (fun c => !(c.isAllNull))).Sublist X.cols :=
    List.filter_sublist X.cols
  exact (hsub.map Col.name).nodup h

theorem retainedDF_rect {X : DF} (h : X.Rect) : (retainedDF X).Rect := by
  intro c hc
  exact h c (retainedDF_cols_sub hc)

theorem retainedDF_eq_of_nc_nil {X : DF} (h : (nan_col_dropper X).2 = []) :
    retainedDF X = X := by
  rw [nan_col_dropper] at h
  have hfn : X.cols.filter (fun c => c.isAllNull) = [] :=
    List.map_eq_nil_iff.mp h
  have hall : ∀ c ∈ X.cols, (!(c.isAllNull)) = true := by
    intro c hc
    by_cases hn : c.isAllNull
    · have : c ∈ X.cols.filter (fun c => c.isAllNull) :=
        List.mem_filter.mpr ⟨hc, hn⟩
      rw [hfn] at this
      cases this
    · simp [hn]
  have hcols : X.cols.filter (fun c => !(c.isAllNull)) = X.cols :=
    List.filter_eq_self.mpr hall
  rw [retainedDF, nan_col_dropper]
  show (⟨X.idx, X.cols.filter (fun c => !(c.isAllNull))⟩ : DF) = X
  rw [hcols]

theorem dfDrop_nc {X : DF} (hnodup : X.colNames.Nodup) :
    dfDrop X (nan_col_dropper X).2 = Except.ok (retainedDF X) := by
  have hcont : ∀ nm ∈ (nan_col_dropper X).2, X.colNames.contains nm = true := by
    intro nm hnm
    rw [nan_col_dropper] at hnm
    rcases List.mem_map.mp hnm with ⟨c, hc, rfl⟩
    exact List.elem_iff.mpr
      (List.mem_map_of_mem Col.name (List.mem_of_mem_filter hc))
  have hflt : X.cols.filter
        (fun c => !((nan_col_dropper X).2.contains c.name))
      = X.cols.filter (fun c => !(c.isAllNull)) := by
    refine List.filter_congr ?_
    intro c hc
    by_cases hn : c.isAllNull
    · have hmem : c.name ∈ (nan_col_dropper X).2 := by
        rw [nan_col_dropper]
        exact List.mem_map_of_mem Col.name (List.mem_filter.mpr ⟨hc, hn⟩)
      rw [show ((nan_col_dropper X).2.contains c.name) = true from
        List.elem_iff.mpr hmem]
      simp [hn]
    · have hmem : c.name ∉ (nan_col_dropper X).2 := by
        rw [nan_col_dropper]
        intro hcc
        rcases List.mem_map.mp hcc with ⟨c', hc', hname⟩
        have hcc' : c' = c :=
          List.inj_on_of_nodup_map hnodup
            (List.mem_of_mem_filter hc') hc hname
        rw [hcc'] at hc'
        exact hn (List.of_mem_filter hc')
      have hb : ((nan_col_dropper X).2.contains c.name) = false := by
        rw [Bool.eq_false_iff]
        intro hcc
        exact hmem (List.elem_iff.mp hcc)
      rw [hb]
      simp [hn]
  rw [dfDrop_ok_of_contains hcont, hflt]
  rfl

theorem filter_not_contains_self (l : List String) :
    l.filter (fun s => !(l.contains s)) = [] := by
  refine List.filter_eq_nil_iff.mpr ?_
  intro s hs
  rw [show (l.contains s) = true from List.elem_iff.mpr hs]
  simp

theorem fitSt_scaler {cl : Classifier} {X : DF} {stats : List (String × FittedClf)} :
    ({ (prep_dataframes (initState cl none) X).1 with
      statistics := stats, fitted := true } : MCState).scaler = none := rfl

/-- After a successful default-configuration `fit`, `_prep_predictor` with
`new_data=False` succeeds, leaves the state unchanged, and hands back the
dataset with its entirely-null columns removed (possibly warning). -/
theorem prep_predictor_after_fit {cl : Classifier} {X : DF} {fr : FitOut}
    (hnodup : X.colNames.Nodup)
    (hfit : fitM (initState cl none) X = Except.ok fr) :
    ∃ w, prep_predictor fr.st X false
      = Except.ok ⟨fr.st, retainedDF X, w⟩ := by
  rcases fitM_ok_elim rfl hfit with ⟨stats, hm, hfr⟩
  have hfitted : fr.st.fitted = true := by rw [hfr]
  have hsc : fr.st.scaler = none := by rw [hfr]; rfl
  have hnc : fr.st.nc = (nan_col_dropper X).2 := by rw [hfr]; rfl
  have hmi : fr.st.data_mi = isnullMI (retainedDF X) := by rw [hfr]; rfl
  have hminames : fr.st.data_mi.colNames = (retainedDF X).colNames := by
    rw [hmi, isnullMI_colNames]
  have hafter : ∀ Y : DF, Y.colNames = (retainedDF X).colNames →
      ∀ w1, prepAfterDrop fr.st Y false w1 = Except.ok ⟨fr.st, Y, w1⟩ := by
    intro Y hY w1
    rw [prepAfterDrop, if_pos ?cond]
    case cond =>
      rw [hY, hminames]
      rw [filter_not_contains_self ((retainedDF X).colNames)]
      rfl
    simp only [Bool.false_eq_true, if_false, hsc, Option.isSome_none,
      List.append_nil]
  rw [prep_predictor, if_pos hfitted]
  by_cases hnce : fr.st.nc.isEmpty = true
  · rw [if_pos hnce]
    have hXr : retainedDF X = X := by
      refine retainedDF_eq_of_nc_nil ?_
      rw [← hnc]
      exact List.isEmpty_iff.mp hnce
    refine ⟨[], ?_⟩
    have := hafter X (by rw [hXr]) []
    rw [this, hXr]
  · rw [if_neg hnce]
    have hdrop : dfDrop X fr.st.nc = Except.ok (retainedDF X) := by
      rw [hnc]
      exact dfDrop_nc hnodup
    rw [hdrop]
    exact ⟨[dropWarnMsg fr.st.nc], hafter (retainedDF X) rfl _⟩

theorem find?_zipWith_pred (names : List String) (preds : List (List ℚ))
    (c : String) (hlen : names.length = preds.length) (hmem : c ∈ names) :
    ∃ v ∈ preds,
      (List.zipWith (fun nm v =>
          Col.mk (nm ++ "_pred") Dtype.numeric
            (v.map (fun q => some (Val.num q)))) names preds).find?
          (fun k => k.name == c ++ "_pred")
        = some (Col.mk (c ++ "_pred") Dtype.numeric
            (v.map (fun q => some (Val.num q)))) := by
  induction names generalizing preds with
  | nil => cases hmem
  | cons nm rest ih =>
      cases preds with
      | nil => cases hlen
      | cons v vs =>
          by_cases hc : nm = c
          · subst hc
            refine ⟨v, List.mem_cons_self v vs, ?_⟩
            rw [List.zipWith_cons_cons]
            exact List.find?_cons_of_pos _ (by simp)
          · have hmem' : c ∈ rest := by
              rcases List.mem_cons.mp hmem with rfl | hmem'
              · exact absurd rfl hc
              · exact hmem'
            rcases ih vs (by simpa using hlen) hmem' with ⟨v', hv', hfind⟩
            refine ⟨v', List.mem_cons_of_mem v hv', ?_⟩
            rw [List.zipWith_cons_cons]
            rw [List.find?_cons_of_neg _ ?_]
            · exact hfind
            · show ¬(((nm ++ "_pred") == (c ++ "_pred")) = true)
              intro hcc
              exact hc (string_append_cancel (by simpa using hcc))

theorem alookup_exceptMap_keyed {α β : Type} (key : α → String)
    {f : α → Except String (String × β)} {l : List α}
    {s : List (String × β)}
    (hkeys : ∀ a b, f a = Except.ok b → b.1 = key a)
    (hm : exceptMap f l = Except.ok s)
    (hnd : (l.map key).Nodup)
    {a : α} (ha : a ∈ l) {w : β} (hw : f a = Except.ok ((key a, w))) :
    alookup s (key a) = some w := by
  induction l generalizing s with
  | nil => cases ha
  | cons x xs ih =>
      simp only [exceptMap] at hm
      cases hx : f x with
      | error e => rw [hx] at hm; cases hm
      | ok b =>
          rw [hx] at hm
          cases hxs : exceptMap f xs with
          | error e => rw [hxs] at hm; cases hm
          | ok bs =>
              rw [hxs] at hm
              cases hm
              rw [List.map_cons, List.nodup_cons] at hnd
              rcases List.mem_cons.mp ha with rfl | hmem
              · have hb : b = (key a, w) := by
                  rw [hx] at hw
                  cases hw
                  rfl
                rw [alookup, hb]
                rw [List.find?_cons_of_pos _ (by simp)]
                rfl
              · have hne : key x ≠ key a := by
                  intro hcc
                  exact hnd.1 (hcc ▸ List.mem_map_of_mem key hmem)
                rw [alookup, List.find?_cons_of_neg _ ?_]
                · exact ih hxs hnd.2 hmem
                · show ¬((b.1 == key a) = true)
                  rw [hkeys x b hx]
                  simp [hne]

theorem probaColFor_ok_length {st : MCState} {x : DF} {n : Nat} {mc : MICol}
    {v : List ℚ} (h : probaColFor st x n mc = Except.ok v) : v.length = n := by
  rw [probaColFor] at h
  cases hp : prep_classifier_cols st x mc.name with
  | error e => rw [hp] at h; cases h
  | ok pr =>
      rw [hp] at h
      cases hl : alookup st.statistics mc.name with
      | none => rw [hl] at h; cases h
      | some f =>
          rw [hl] at h
          cases h
          rw [List.length_map, colsValues, List.length_map, List.length_range]

theorem predictProbaM_ok_elim {st : MCState} {X : DF} {nd : Bool}
    {out : PredOut} (h : predictProbaM st X nd = Except.ok out) :
    ∃ po preds, prep_predictor st X nd = Except.ok po ∧
      exceptMap (probaColFor po.st po.x po.st.data_mi.idx.length)
        po.st.data_mi.cols = Except.ok preds ∧
      out = ⟨assemblePreds po.x po.st.data_mi.idx.length preds, po.x,
        { po.st with data_mi_proba :=
            assemblePreds po.x po.st.data_mi.idx.length preds }, po.warns⟩ := by
  rw [predictProbaM] at h
  cases hpp : prep_predictor st X nd with
  | error e => rw [hpp] at h; cases h
  | ok po =>
      rw [hpp] at h
      dsimp only at h
      cases hm : exceptMap (probaColFor po.st po.x po.st.data_mi.idx.length)
          po.st.data_mi.cols with
      | error e => rw [hm] at h; cases h
      | ok preds =>
          rw [hm] at h
          cases h
          exact ⟨po, preds, rfl, hm, rfl⟩

theorem genTestIndicesM_ok_elim {st0 : MCState} {X : DF} {t : ℚ} {nd : Bool}
    {g : GenOut} (h : genTestIndicesM st0 X t nd false = Except.ok g) :
    ∃ fr po ti, fitM st0 X = Except.ok fr ∧
      predictProbaM fr.st fr.xAfter nd = Except.ok po ∧
      exceptMap (testIndicesFor po.st t) po.st.data_mi.cols
        = Except.ok ti ∧
      g.st = { po.st with test_indices := ti } ∧ g.xAfter = po.xAfter := by
  rw [genTestIndicesM, if_neg (by simp)] at h
  cases hfp : fitPredictProbaM st0 X nd with
  | error e => rw [hfp] at h; cases h
  | ok po0 =>
      rw [hfp] at h
      dsimp only at h
      rw [genTestLoop] at h
      dsimp only at h
      cases hm : exceptMap (testIndicesFor po0.st t) po0.st.data_mi.cols with
      | error e => rw [hm] at h; cases h
      | ok ti =>
          rw [hm] at h
          cases h
          rw [fitPredictProbaM] at hfp
          cases hfit : fitM st0 X with
          | error e => rw [hfit] at hfp; cases hfp
          | ok fr =>
              rw [hfit] at hfp
              dsimp only at hfp
              cases hpp : predictProbaM fr.st fr.xAfter nd with
              | error e => rw [hpp] at hfp; cases hfp
              | ok po =>
                  rw [hpp] at hfp
                  cases hfp
                  exact ⟨fr, po, ti, rfl, hpp, hm, rfl, rfl⟩

theorem isnullMI_cells_length {Y : DF} (hrect : Y.Rect) {mc : MICol}
    (h : mc ∈ (isnullMI Y).cols) : mc.cells.length = Y.idx.length := by
  rcases List.mem_map.mp h with ⟨c, hc, hceq⟩
  rw [← hceq]
  show (c.cells.map _).length = _
  rw [List.length_map]
  exact hrect c hc

theorem testIndicesFor_ok_key {s1 : MCState} {t : ℚ} {mc : MICol}
    {b : String × List Nat} (h : testIndicesFor s1 t mc = Except.ok b) :
    b.1 = mc.name := by
  rw [testIndicesFor] at h
  cases hm : exceptMap (fun l =>
      match locProba s1.data_mi_proba l (mc.name ++ "_pred") with
      | some q => Except.ok ((l, q))
      | none => Except.error ("KeyError: label not in probability table"))
    (((s1.data_mi.idx.zip mc.cells).filter
      (fun p => p.2 == 0)).map Prod.fst) with
  | error e => rw [hm] at h; cases h
  | ok vals =>
      rw [hm] at h
      cases h
      rfl

/-- On default-indexed state, the per-column flagging loop returns exactly
the positions whose indicator is 0 and whose tabulated probability exceeds
the threshold. -/
theorem testIndicesFor_spec (s1 : MCState) (t : ℚ) (mc : MICol) (n : Nat)
    (hidx : s1.data_mi.idx = List.range n)
    (hlen : mc.cells.length = n)
    (hpidx : s1.data_mi_proba.idx = List.range n)
    (v : List ℚ) (hvlen : v.length = n)
    (hfind : s1.data_mi_proba.find? (mc.name ++ "_pred")
        = some ⟨mc.name ++ "_pred", Dtype.numeric,
            v.map (fun q => some (Val.num q))⟩) :
    testIndicesFor s1 t mc
      = Except.ok ((mc.name, (List.range n).filter
          (fun r => (mc.cells.getD r 1 == 0)
            && decide (t < probaVal s1.data_mi_proba mc.name r)))) := by
  have hprobaVal : ∀ r : Nat, r < n →
      probaVal s1.data_mi_proba mc.name r = v.getD r 0 := by
    intro r hr
    rw [probaVal, hfind]
    dsimp only
    rw [map_some_num_getD v r (by rw [hvlen]; exact hr)]
  have hloc : ∀ l, l < n →
      locProba s1.data_mi_proba l (mc.name ++ "_pred")
        = some (v.getD l 0) := by
    intro l hl
    rw [locProba, hfind, hpidx, posOf_range hl]
    dsimp only
    rw [map_some_num_getD v l (by rw [hvlen]; exact hl)]
  have hnotMi := zip_range_filter mc.cells (fun x => x == 0) 1
  rw [hlen] at hnotMi
  have hmemn : ∀ l ∈ (((List.range n).zip mc.cells).filter
      (fun p => p.2 == 0)).map Prod.fst, l < n := by
    intro l hl
    rw [hnotMi] at hl
    exact List.mem_range.mp (List.mem_of_mem_filter hl)
  have hexc : exceptMap (fun l =>
        match locProba s1.data_mi_proba l (mc.name ++ "_pred") with
        | some q => Except.ok ((l, q))
        | none => Except.error ("KeyError: label not in probability table"))
      ((((List.range n).zip mc.cells).filter
        (fun p => p.2 == 0)).map Prod.fst)
      = Except.ok (((((List.range n).zip mc.cells).filter
          (fun p => p.2 == 0)).map Prod.fst).map
            (fun l => (l, v.getD l 0))) := by
    refine exceptMap_ok_of_forall ?_
    intro l hl
    rw [hloc l (hmemn l hl)]
  rw [testIndicesFor, hidx, hexc]
  dsimp only
  rw [List.filter_map, List.map_map]
  have hfst : (Prod.fst ∘ fun l : Nat => ((l, v.getD l 0) : Nat × ℚ))
      = fun l : Nat => l := by
    funext l
    rfl
  rw [hfst]
  have hcomp : ((fun p : Nat × ℚ => decide (t < p.2))
        ∘ fun l : Nat => ((l, v.getD l 0) : Nat × ℚ))
      = fun l : Nat => decide (t < v.getD l 0) := by
    funext l
    rfl
  rw [hcomp, List.map_id']
  rw [hnotMi, List.filter_filter]
  have hcong : ∀ r ∈ List.range n,
      (decide (t < v.getD r 0) && (mc.cells.getD r 1 == 0))
        = ((mc.cells.getD r 1 == 0)
            && decide (t < probaVal s1.data_mi_proba mc.name r)) := by
    intro r hr
    rw [hprobaVal r (List.mem_range.mp hr)]
    rw [Bool.and_comm]
  rw [List.filter_congr hcong]

/-- C1: on a default-indexed dataset, `gen_test_indices(X, thresh=t)`
records, for every retained column, exactly the set of row positions whose
missingness indicator is 0 (the value was observed) and whose predicted
probability of missingness (as tabulated by `predict_proba`) strictly
exceeds `t`. -/
theorem C1_gen_test_indices_exact (cl : Classifier) (X : DF) (t : ℚ)
    (g : GenOut)
    (hidx : X.defaultIdx) (hrect : X.Rect) (hnodup : X.colNames.Nodup)
    (h : genTestIndicesM (initState cl none) X t false false = Except.ok g) :
    ∀ mc ∈ g.st.data_mi.cols,
      alookup g.st.test_indices mc.name
        = some ((List.range X.nrows).filter
            (fun r => (miVal g.st.data_mi mc.name r == 0)
              && decide (t < probaVal g.st.data_mi_proba mc.name r))) := by
  rcases genTestIndicesM_ok_elim h with ⟨fr, po, ti, hfit, hpp, hm, hgst, hgx⟩
  rcases fitM_ok_elim rfl hfit with ⟨stats, hsm, hfr⟩
  have hxa : fr.xAfter = X := by rw [hfr]
  rw [hxa] at hpp
  rcases predictProbaM_ok_elim hpp with ⟨q, preds, hq, hpreds, hpo⟩
  rcases prep_predictor_after_fit hnodup hfit with ⟨w, hq2⟩
  rw [hq] at hq2
  injection hq2 with hqq
  rw [hqq] at hpreds hpo
  dsimp only at hpreds hpo
  rw [hpo] at hm
  dsimp only at hm
  have hmi : fr.st.data_mi = isnullMI (retainedDF X) := by rw [hfr]; rfl
  have hmiidx : fr.st.data_mi.idx = X.idx := by rw [hmi]; rfl
  have hn : fr.st.data_mi.idx.length = X.idx.length := by rw [hmiidx]
  have hnd : (fr.st.data_mi.cols.map MICol.name).Nodup := by
    rw [hmi]
    show (isnullMI (retainedDF X)).colNames.Nodup
    rw [isnullMI_colNames]
    exact retainedDF_colNames_nodup hnodup
  have hgmi : g.st.data_mi = fr.st.data_mi := by
    rw [hgst, hpo]
  have hgproba : g.st.data_mi_proba
      = assemblePreds (retainedDF X) fr.st.data_mi.idx.length preds := by
    rw [hgst, hpo]
  have hgti : g.st.test_indices = ti := by rw [hgst]
  intro mc hmc
  have hmc' : mc ∈ fr.st.data_mi.cols := by rw [← hgmi]; exact hmc
  have hmcn : mc ∈ (isnullMI (retainedDF X)).cols := by
    rw [← hmi]; exact hmc'
  have hmemname : mc.name ∈ (retainedDF X).colNames := mi_mem_name hmcn
  have hlen1 : (retainedDF X).colNames.length = preds.length := by
    rw [exceptMap_ok_length hpreds, hmi]
    show _ = ((retainedDF X).cols.map _).length
    rw [DF.colNames, List.length_map, List.length_map]
  rcases find?_zipWith_pred (retainedDF X).colNames preds mc.name
    hlen1 hmemname with ⟨v, hvmem, hvfind⟩
  rcases exceptMap_ok_mem_rev hpreds v hvmem with ⟨mc2, _, hfv⟩
  have hvlen : v.length = fr.st.data_mi.idx.length :=
    probaColFor_ok_length hfv
  have hspec := testIndicesFor_spec
    ({ fr.st with data_mi_proba :=
        assemblePreds (retainedDF X) fr.st.data_mi.idx.length preds })
    t mc X.idx.length
    (by
      show fr.st.data_mi.idx = List.range X.idx.length
      rw [hmiidx]; exact hidx)
    (by
      have := isnullMI_cells_length (retainedDF_rect hrect) hmcn
      rw [this]; rfl)
    (by
      show (assemblePreds (retainedDF X)
          fr.st.data_mi.idx.length preds).idx = List.range X.idx.length
      rw [assemblePreds, hn])
    v
    (by rw [hvlen, hn])
    (by
      show (assemblePreds (retainedDF X)
          fr.st.data_mi.idx.length preds).find? (mc.name ++ "_pred") = _
      rw [assemblePreds, DF.find?]
      exact hvfind)
  have hlook : alookup ti mc.name
      = some ((List.range X.idx.length).filter
          (fun r => (mc.cells.getD r 1 == 0)
            && decide (t < probaVal
                (assemblePreds (retainedDF X)
                  fr.st.data_mi.idx.length preds) mc.name r))) := by
    refine alookup_exceptMap_keyed MICol.name
      (fun a b hab => testIndicesFor_ok_key hab) hm hnd hmc' ?_
    exact hspec
  rw [hgti, hlook]
  have hfindmi : g.st.data_mi.find? mc.name = some mc.cells := by
    rw [hgmi, hmi]
    show ((isnullMI (retainedDF X)).cols.find?
        (fun k => k.name == mc.name)).map MICol.cells = some mc.cells
    rw [find?_key_of_nodup MICol.name (by rw [← hmi]; exact hnd) hmcn]
    rfl
  have hmiVal : ∀ r, miVal g.st.data_mi mc.name r = mc.cells.getD r 1 := by
    intro r
    rw [miVal, hfindmi]
    rfl
  congr 1
  refine List.filter_congr ?_
  intro r _
  rw [hmiVal r, hgproba]

/-- C1 witness: with the stub classifier (fixed probability 1) and
threshold 0 on `exX`, the flagged indices for `a` are exactly its observed
rows `[0, 2]` and for `g` all rows `[0, 1, 2]`. -/
theorem C1_witness :
    ∃ g, genTestIndicesM (initState stubClf none) exX 0 false false
        = Except.ok g ∧
      alookup g.st.test_indices ("a") = some [0, 2] ∧
      alookup g.st.test_indices ("g") = some [0, 1, 2] := by
  cases hg : genTestIndicesM (initState stubClf none) exX 0 false false with
  | error e =>
      have hok : (genTestIndicesM
          (initState stubClf none) exX 0 false false).isOk = true := by
        decide
      rw [hg] at hok
      exact Bool.noConfusion hok
  | ok g =>
      have hmain := C1_gen_test_indices_exact stubClf exX 0 g
        (show exX.idx = List.range exX.idx.length by decide)
        (show ∀ c ∈ exX.cols, c.cells.length = exX.idx.length by decide)
        (by decide) hg
      have hmi2 : (genTestIndicesM
            (initState stubClf none) exX 0 false false).map
          (fun g => g.st.data_mi)
          = Except.ok (⟨[0, 1, 2],
              [⟨("a"), [0, 1, 0]⟩, ⟨("g"), [0, 0, 0]⟩]⟩ : MI) := by
        decide
      have hpr2 : (genTestIndicesM
            (initState stubClf none) exX 0 false false).map
          (fun g => g.st.data_mi_proba)
          = Except.ok (⟨[0, 1, 2],
              [⟨("a_pred"), Dtype.numeric,
                [some (Val.num 1), some (Val.num 1), some (Val.num 1)]⟩,
               ⟨("g_pred"), Dtype.numeric,
                [some (Val.num 1), some (Val.num 1),
                 some (Val.num 1)]⟩]⟩ : DF) := by
        decide
      rw [hg] at hmi2 hpr2
      rw [Except.map] at hmi2 hpr2
      injection hmi2 with hmi3
      injection hpr2 with hpr3
      have ha := hmain ⟨("a"), [0, 1, 0]⟩ (by rw [hmi3]; decide)
      have hb := hmain ⟨("g"), [0, 0, 0]⟩ (by rw [hmi3]; decide)
      rw [hmi3, hpr3] at ha hb
      refine ⟨g, rfl, ?_, ?_⟩
      · rw [ha]
        decide
      · rw [hb]
        decide

/- ### C6: masking semantics of gen_test_df -/

theorem zipWith_range {β γ : Type} (f : Nat → β → γ) (cells : List β)
    (d : β) :
    List.zipWith f (List.range cells.length) cells
      = (List.range cells.length).map (fun r => f r (cells.getD r d)) := by
  induction cells generalizing f with
  | nil => rfl
  | cons x xs ih =>
      rw [List.length_cons, List.range_succ_eq_map]
      rw [List.zipWith_cons_cons, List.map_cons]
      rw [List.zipWith_map_left]
      rw [List.map_map]
      rw [ih (fun a b => f (Nat.succ a) b)]
      rfl

theorem map_range_getD {γ : Type} (f : Nat → γ) (n r : Nat) (d : γ)
    (hr : r < n) : ((List.range n).map f).getD r d = f r := by
  induction n generalizing f r with
  | zero => cases hr
  | succ k ih =>
      rw [List.range_succ_eq_map, List.map_cons]
      cases r with
      | zero => rfl
      | succ j =>
          rw [List.getD_cons_succ, List.map_map]
          exact ih (fun a => f (Nat.succ a)) j (by omega)

theorem find?_map_keyed (g : Col → Col) (hg : ∀ c, (g c).name = c.name)
    {cols : List Col} (hnd : (cols.map Col.name).Nodup) {col : Col}
    (hc : col ∈ cols) :
    (cols.map g).find? (fun k => k.name == col.name) = some (g col) := by
  induction cols with
  | nil => cases hc
  | cons x xs ih =>
      rw [List.map_cons, List.nodup_cons] at hnd
      rw [List.map_cons]
      by_cases hx : x.name = col.name
      · have hxc : x = col := by
          rcases List.mem_cons.mp hc with rfl | hmem
          · rfl
          · exact absurd (hx ▸ List.mem_map_of_mem Col.name hmem) hnd.1
        subst hxc
        rw [List.find?_cons_of_pos _ (by rw [hg]; simp)]
      · have hmem : col ∈ xs := by
          rcases List.mem_cons.mp hc with rfl | hmem
          · exact absurd rfl hx
          · exact hmem
        rw [List.find?_cons_of_neg _ (by rw [hg]; simp [hx])]
        exact ih hnd.2 hmem

theorem maskCols_ok {ti : List (String × List Nat)} {idx : List Nat}
    {mn : ℤ} {m : ℚ} {cols : List Col} {pr : List Col × List String}
    (h : maskCols ti idx mn m cols = Except.ok pr) :
    pr.1 = cols.map (fun col =>
      ⟨col.name, col.dtype,
        List.zipWith (fun l v =>
            if ((alookup ti col.name).getD []).contains l then none else v)
          idx col.cells⟩) := by
  induction cols generalizing pr with
  | nil =>
      cases h
      rfl
  | cons c rest ih =>
      rw [maskCols] at h
      cases hl : alookup ti c.name with
      | none => rw [hl] at h; cases h
      | some ix =>
          rw [hl] at h
          cases hrest : maskCols ti idx mn m rest with
          | error e => rw [hrest] at h; cases h
          | ok pr' =>
              rw [hrest] at h
              cases h
              rw [List.map_cons]
              show _ :: pr'.1 = _
              rw [ih hrest, hl]
              rfl

theorem genTestDFM_ok_elim {st0 : MCState} {X : DF} {t m : ℚ} {nd ue : Bool}
    {out : TestDFOut}
    (h : genTestDFM st0 X t m false nd ue = Except.ok out) :
    ∃ g pr, genTestIndicesM st0 X t nd ue = Except.ok g ∧
      maskCols g.st.test_indices g.xAfter.idx
        ⌊m * (g.xAfter.nrows : ℚ)⌋ m g.xAfter.cols = Except.ok pr ∧
      out.result = ⟨g.xAfter.idx, pr.1⟩ ∧ out.st = g.st := by
  rw [genTestDFM] at h
  cases hg : genTestIndicesM st0 X t nd ue with
  | error e => rw [hg] at h; cases h
  | ok g =>
      rw [hg] at h
      dsimp only at h
      cases hm : maskCols g.st.test_indices g.xAfter.idx
          ⌊m * (g.xAfter.nrows : ℚ)⌋ m g.xAfter.cols with
      | error e => rw [hm] at h; cases h
      | ok pr =>
          rw [hm] at h
          cases h
          exact ⟨g, pr, rfl, hm, rfl, rfl⟩

theorem genTestIndices_xAfter_retained {cl : Classifier} {X : DF} {t : ℚ}
    {g : GenOut} (hnodup : X.colNames.Nodup)
    (h : genTestIndicesM (initState cl none) X t false false
      = Except.ok g) :
    g.xAfter = retainedDF X := by
  rcases genTestIndicesM_ok_elim h with ⟨fr, po, ti, hfit, hpp, hm, hgst, hgx⟩
  rcases fitM_ok_elim rfl hfit with ⟨stats, _, hfr⟩
  have hxa : fr.xAfter = X := by rw [hfr]
  rw [hxa] at hpp
  rcases predictProbaM_ok_elim hpp with ⟨q, preds, hq, hpreds, hpo⟩
  rcases prep_predictor_after_fit hnodup hfit with ⟨w, hq2⟩
  rw [hq] at hq2
  injection hq2 with hqq
  rw [hgx, hpo, hqq]

/-- C6 counterexample: the input's entirely-null column `z` is dropped from
the table `gen_test_df` returns (the pipeline's in-place drop hits the
working copy before masking), so not every cell of the input survives
unchanged — the whole column is gone. -/
theorem C6_counterexample :
    (genTestDFM (initState stubClf none) exXz 0 0 false false false).map
      (fun o => o.result.colNames) = Except.ok (["a", "b"]) ∧
    ("z") ∈ exXz.colNames := by
  exact ⟨by decide, by decide⟩

/-- C6 (amended): for every column retained by the pipeline (entirely-null
columns are dropped from the returned table, as the counterexample shows),
the table returned by `gen_test_df` is null exactly at the flagged row
positions and agrees with the input everywhere else — in particular cells
already null in the input and not flagged stay as they were. -/
theorem C6_mask_only_flagged (cl : Classifier) (X : DF) (t m : ℚ)
    (out : TestDFOut)
    (hidx : X.defaultIdx) (hrect : X.Rect) (hnodup : X.colNames.Nodup)
    (h : genTestDFM (initState cl none) X t m false false false
      = Except.ok out) :
    ∀ col ∈ (retainedDF X).cols, ∀ r, r < X.nrows →
      (((alookup out.st.test_indices col.name).getD []).contains r = true →
        dfCell out.result col.name r = none) ∧
      (((alookup out.st.test_indices col.name).getD []).contains r = false →
        dfCell out.result col.name r = col.cells.getD r none) := by
  rcases genTestDFM_ok_elim h with ⟨g, pr, hg, hmask, hres, hst⟩
  have hgx : g.xAfter = retainedDF X :=
    genTestIndices_xAfter_retained hnodup hg
  have hcols := maskCols_ok hmask
  intro col hcol r hr
  have hndret : ((retainedDF X).cols.map Col.name).Nodup :=
    retainedDF_colNames_nodup hnodup
  have hfind : out.result.find? col.name
      = some ⟨col.name, col.dtype,
          List.zipWith (fun l v =>
              if ((alookup g.st.test_indices col.name).getD []).contains l
              then none else v)
            g.xAfter.idx col.cells⟩ := by
    rw [hres]
    show (pr.1.find? (fun k => k.name == col.name)) = _
    rw [hcols, hgx]
    exact find?_map_keyed (fun c => ⟨c.name, c.dtype,
        List.zipWith (fun l v =>
            if ((alookup g.st.test_indices c.name).getD []).contains l
            then none else v)
          (retainedDF X).idx c.cells⟩) (fun c => rfl) hndret hcol
  have hcl : col.cells.length = X.idx.length := hrect col (retainedDF_cols_sub hcol)
  have hzip : List.zipWith (fun l v =>
        if ((alookup g.st.test_indices col.name).getD []).contains l
        then none else v) g.xAfter.idx col.cells
      = (List.range col.cells.length).map (fun l =>
          if ((alookup g.st.test_indices col.name).getD []).contains l
          then none else col.cells.getD l none) := by
    rw [hgx, retainedDF_idx]
    rw [show X.idx = List.range col.cells.length by rw [hcl]; exact hidx]
    exact zipWith_range _ col.cells none
  have hcell : dfCell out.result col.name r
      = (if ((alookup g.st.test_indices col.name).getD []).contains r
          then none else col.cells.getD r none) := by
    rw [dfCell, hfind]
    show (List.zipWith _ g.xAfter.idx col.cells).getD r none = _
    rw [hzip]
    exact map_range_getD _ col.cells.length r none (by rw [hcl]; exact hr)
  rw [hst] at *
  constructor
  · intro hflag
    rw [hcell, if_pos hflag]
  · intro hflag
    rw [hcell, if_neg (by rw [hflag]; exact Bool.false_ne_true)]

/-- C6 witness: on `exX`, cell (`a`, 0) is flagged and nulled, while cell
(`a`, 1) — already null in the input and not flagged — is unchanged. -/
theorem C6_witness :
    ∃ out, genTestDFM (initState stubClf none) exX 0 0 false false false
        = Except.ok out ∧
      dfCell out.result ("a") 0 = none ∧
      dfCell out.result ("a") 1 = none := by
  cases hg : genTestDFM (initState stubClf none) exX 0 0 false false false with
  | error e =>
      have hok : (genTestDFM
          (initState stubClf none) exX 0 0 false false false).isOk
          = true := by decide
      rw [hg] at hok
      exact Bool.noConfusion hok
  | ok out =>
      have hmain := C6_mask_only_flagged stubClf exX 0 0 out
        (show exX.idx = List.range exX.idx.length by decide)
        (show ∀ c ∈ exX.cols, c.cells.length = exX.idx.length by decide)
        (by decide) hg
      have hti : (genTestDFM
            (initState stubClf none) exX 0 0 false false false).map
          (fun o => o.st.test_indices)
          = Except.ok ([(("a"), [0, 2]), (("g"), [0, 1, 2])]) := by
        decide
      rw [hg] at hti
      rw [Except.map] at hti
      injection hti with hti2
      have hacol : (⟨("a"), Dtype.numeric,
          [some (Val.num 1), none, some (Val.num 3)]⟩ : Col)
          ∈ (retainedDF exX).cols := by decide
      have h0 := (hmain _ hacol 0 (by decide)).1
        (by rw [hti2]; decide)
      have h1 := (hmain _ hacol 1 (by decide)).2
        (by rw [hti2]; decide)
      exact ⟨out, rfl, h0, by rw [h1]; rfl⟩

theorem exceptMap_isOk_of_forall {α β : Type} {f : α → Except String β}
    {l : List α} (h : ∀ a ∈ l, ∃ b, f a = Except.ok b) :
    ∃ s, exceptMap f l = Except.ok s := by
  induction l with
  | nil => exact ⟨[], rfl⟩
  | cons x xs ih =>
      rcases h x (List.mem_cons_self x xs) with ⟨b, hb⟩
      rcases ih (fun a ha => h a (List.mem_cons_of_mem x ha)) with ⟨s, hs⟩
      exact ⟨b :: s, by simp only [exceptMap, hb, hs]⟩

theorem find?_of_mem_nodup {l : List Col} (hnd : (l.map Col.name).Nodup)
    {c : Col} (hc : c ∈ l) :
    l.find? (fun k => k.name == c.name) = some c := by
  rcases find?_key_some Col.name (List.mem_map_of_mem Col.name hc) with
    ⟨b, hb, hbmem, hkey⟩
  have hbc : b = c := List.inj_on_of_nodup_map hnd hbmem hc hkey
  rw [hbc] at hb
  exact hb

theorem find?_retained {X : DF} (hnodup : X.colNames.Nodup) {c : String}
    (h : c ∈ (retainedDF X).colNames) :
    (retainedDF X).find? c = X.find? c := by
  rcases List.mem_map.mp h with ⟨col, hcol, rfl⟩
  have h1 : (retainedDF X).find? col.name = some col :=
    find?_of_mem_nodup (retainedDF_colNames_nodup hnodup) hcol
  have h2 : X.find? col.name = some col :=
    find?_of_mem_nodup hnodup (retainedDF_cols_sub hcol)
  rw [h1, h2]

theorem prep_classifier_cols_find_congr (st : MCState) {Y Z : DF}
    {c : String} (h : Y.find? c = Z.find? c) :
    prep_classifier_cols st Y c = prep_classifier_cols st Z c := by
  rw [prep_classifier_cols, prep_classifier_cols, h]

theorem prep_classifier_cols_update (s : MCState)
    (stats : List (String × FittedClf)) (Y : DF) (c : String) :
    prep_classifier_cols
        { s with statistics := stats, fitted := true } Y c
      = prep_classifier_cols s Y c := rfl

theorem mem_zipWith_pred_names {s : String} (names : List String)
    (preds : List (List ℚ))
    (h : s ∈ (List.zipWith (fun nm v =>
        Col.mk (nm ++ "_pred") Dtype.numeric
          (v.map (fun q => some (Val.num q)))) names preds).map Col.name) :
    ∃ nm ∈ names, s = nm ++ "_pred" := by
  induction names generalizing preds with
  | nil => simp at h
  | cons nm rest ih =>
      cases preds with
      | nil => simp at h
      | cons v vs =>
          rw [List.zipWith_cons_cons, List.map_cons] at h
          rcases List.mem_cons.mp h with heq | hmem
          · exact ⟨nm, List.mem_cons_self nm rest, heq⟩
          · rcases ih vs hmem with ⟨nm', hnm', heq'⟩
            exact ⟨nm', List.mem_cons_of_mem nm hnm', heq'⟩

theorem notMem_retained_of_allNull {X : DF} {cz : Col}
    (hnodup : X.colNames.Nodup) (hmem : cz ∈ X.cols)
    (hnull : cz.isAllNull = true) :
    cz.name ∉ (retainedDF X).colNames := by
  intro hc
  rcases List.mem_map.mp hc with ⟨c', hc', hname⟩
  have hcx : c' ∈ X.cols := List.mem_of_mem_filter hc'
  have hfl := List.of_mem_filter
    (show c' ∈ X.cols.filter (fun k => !(k.isAllNull)) from hc')
  have hcc : c' = cz := List.inj_on_of_nodup_map hnodup hcx hmem hname
  have hfl2 : (!(cz.isAllNull)) = true := by
    rw [← hcc]
    exact hfl
  rw [hnull] at hfl2
  simp at hfl2

/-- Like `prep_predictor_after_fit`, but when fit did drop columns the
warning list is exactly the drop warning. -/
theorem prep_predictor_after_fit_warns {cl : Classifier} {X : DF}
    {fr : FitOut} (hnodup : X.colNames.Nodup)
    (hfit : fitM (initState cl none) X = Except.ok fr)
    (hne : fr.st.nc.isEmpty = false) :
    prep_predictor fr.st X false
      = Except.ok ⟨fr.st, retainedDF X, [dropWarnMsg fr.st.nc]⟩ := by
  rcases fitM_ok_elim rfl hfit with ⟨stats, hm, hfr⟩
  have hfitted : fr.st.fitted = true := by rw [hfr]
  have hsc : fr.st.scaler = none := by rw [hfr]; rfl
  have hnc : fr.st.nc = (nan_col_dropper X).2 := by rw [hfr]; rfl
  have hmi : fr.st.data_mi = isnullMI (retainedDF X) := by rw [hfr]; rfl
  have hminames : fr.st.data_mi.colNames = (retainedDF X).colNames := by
    rw [hmi, isnullMI_colNames]
  rw [prep_predictor, if_pos hfitted, if_neg (by simp [hne])]
  have hdrop : dfDrop X fr.st.nc = Except.ok (retainedDF X) := by
    rw [hnc]
    exact dfDrop_nc hnodup
  rw [hdrop]
  dsimp only
  rw [prepAfterDrop, if_pos ?cond]
  case cond =>
    rw [hminames]
    rw [filter_not_contains_self ((retainedDF X).colNames)]
    rfl
  simp only [Bool.false_eq_true, if_false, hsc, Option.isSome_none,
    List.append_nil]

/-- C9: a column entirely null at fit time has its name recorded among the
dropped columns, is excluded from the missingness indicator matrix, and
gets no entry in the fitted statistics; a later `predict` on the original
dataset (which still contains the column) succeeds, emits the drop
warning, works on the dataset with the column removed, and returns a
prediction table with no `<c>_pred` column for it. -/
theorem C9_all_null_excluded (cl : Classifier) (X : DF) (cz : Col)
    (fr : FitOut) (hnodup : X.colNames.Nodup) (hmem : cz ∈ X.cols)
    (hnull : cz.isAllNull = true)
    (hfit : fitM (initState cl none) X = Except.ok fr) :
    cz.name ∉ fr.st.data_mi.colNames ∧
    cz.name ∈ fr.st.nc ∧
    alookup fr.st.statistics cz.name = none ∧
    ∃ out, predictM fr.st X false = Except.ok out ∧
      dropWarnMsg fr.st.nc ∈ out.warns ∧
      out.xAfter = retainedDF X ∧
      (cz.name ++ "_pred") ∉ out.result.colNames := by
  rcases fitM_ok_elim rfl hfit with ⟨stats, hm, hfr⟩
  have hmi : fr.st.data_mi = isnullMI (retainedDF X) := by rw [hfr]; rfl
  have hnc : fr.st.nc = (nan_col_dropper X).2 := by rw [hfr]; rfl
  have hstS : fr.st.statistics = stats := by rw [hfr]
  have hstup : fr.st = { (prep_dataframes (initState cl none) X).1 with
    statistics := stats, fitted := true } := by rw [hfr]
  have hnotmem : cz.name ∉ (retainedDF X).colNames :=
    notMem_retained_of_allNull hnodup hmem hnull
  have hncmem : cz.name ∈ fr.st.nc := by
    rw [hnc]
    exact List.mem_map_of_mem Col.name (List.mem_filter.mpr ⟨hmem, hnull⟩)
  have hne : fr.st.nc.isEmpty = false := by
    cases hl : fr.st.nc with
    | nil =>
        rw [hl] at hncmem
        exact absurd hncmem (List.not_mem_nil _)
    | cons a l => rfl
  refine ⟨?_, hncmem, ?_, ?_⟩
  · rw [hmi, isnullMI_colNames]
    exact hnotmem
  · have hncond : ¬(cz.name ∈
        ((prep_dataframes (initState cl none) X).1.data_mi.cols).map
          MICol.name) := by
      intro hc
      have h2 : cz.name ∈ (isnullMI (retainedDF X)).colNames := hc
      rw [isnullMI_colNames] at h2
      exact hnotmem h2
    rw [hstS, alookup_fitStats hm cz.name, if_neg hncond]
  · have hpp := prep_predictor_after_fit_warns hnodup hfit hne
    have hall : ∀ mc ∈ fr.st.data_mi.cols,
        ∃ v, predictColFor fr.st (retainedDF X)
          fr.st.data_mi.idx.length mc = Except.ok v := by
      intro mc hmc
      rw [hstup] at hmc
      rcases exceptMap_ok_forall hm mc hmc with ⟨b, hb⟩
      rcases fitOne_ok_shape hb with ⟨pr, hpr, hbv⟩
      have hnameR : mc.name ∈ (retainedDF X).colNames := mi_mem_name hmc
      have hfq : (retainedDF X).find? mc.name = X.find? mc.name :=
        find?_retained hnodup hnameR
      have hprep2 : prep_classifier_cols fr.st (retainedDF X) mc.name
          = Except.ok pr := by
        rw [hstup, prep_classifier_cols_update,
          prep_classifier_cols_find_congr
            (prep_dataframes (initState cl none) X).1 hfq]
        exact hpr
      have hcond : mc.name ∈
          ((prep_dataframes (initState cl none) X).1.data_mi.cols).map
            MICol.name := List.mem_map_of_mem MICol.name hmc
      have hlk : alookup fr.st.statistics mc.name = some b.2 := by
        rw [hstS]
        have hl := alookup_fitStats hm mc.name
        rw [if_pos hcond] at hl
        rw [fitOne_name_eq (prep_dataframes (initState cl none) X).1 X
          (⟨mc.name, []⟩ : MICol) mc rfl, hb] at hl
        exact hl
      refine ⟨(colsValues fr.st.data_mi.idx.length pr.1).map b.2.predRow, ?_⟩
      rw [predictColFor, hprep2]
      dsimp only
      rw [hlk]
    rcases exceptMap_isOk_of_forall hall with ⟨preds, hout⟩
    have hrun : predictM fr.st X false = Except.ok
        ⟨assemblePreds (retainedDF X) fr.st.data_mi.idx.length preds,
         retainedDF X,
         { fr.st with data_mi_preds :=
             assemblePreds (retainedDF X) fr.st.data_mi.idx.length preds },
         [dropWarnMsg fr.st.nc]⟩ := by
      rw [predictM, hpp]
      dsimp only
      rw [hout]
    refine ⟨_, hrun, List.mem_singleton.mpr rfl, rfl, ?_⟩
    intro hin
    have hin' : (cz.name ++ "_pred") ∈ (List.zipWith (fun nm v =>
        Col.mk (nm ++ "_pred") Dtype.numeric
          (v.map (fun q => some (Val.num q))))
        (retainedDF X).colNames preds).map Col.name := hin
    rcases mem_zipWith_pred_names _ _ hin' with ⟨nm, hnm, heq⟩
    have hczn : cz.name = nm := string_append_cancel heq
    have hcz : cz.name ∈ (retainedDF X).colNames := by
      rw [hczn]
      exact hnm
    exact hnotmem hcz

/-- C9 witness: fitting `exXz` drops the all-null column `z`; `z` is absent
from the indicator matrix and the statistics, and `predict` on `exXz`
succeeds with the drop warning and no `z_pred` column. -/
theorem C9_witness :
    ∃ fr, fitM (initState stubClf none) exXz = Except.ok fr ∧
      (("z") ∉ fr.st.data_mi.colNames ∧
       ("z") ∈ fr.st.nc ∧
       alookup fr.st.statistics ("z") = none ∧
       ∃ out, predictM fr.st exXz false = Except.ok out ∧
         dropWarnMsg fr.st.nc ∈ out.warns ∧
         out.xAfter = retainedDF exXz ∧
         (("z") ++ "_pred") ∉ out.result.colNames) := by
  cases hfit : fitM (initState stubClf none) exXz with
  | error e =>
      have hok : (fitM (initState stubClf none) exXz).isOk = true := by decide
      rw [hfit] at hok
      exact Bool.noConfusion hok
  | ok fr =>
      exact ⟨fr, rfl,
        C9_all_null_excluded stubClf exXz
          ⟨("z"), Dtype.numeric, [none, none]⟩ fr
          (by decide) (by decide) (by decide) hfit⟩

end Autoimpute





















